import Mathlib

/-!
# The afb binding glue layer (`libafb-map.c`)

Every function of the glue layer forwards to one entry of the interface table
`afbBindingV4r1_itfptr`, which the host binder supplies.  The table is therefore a
parameter of the development: `Itf σ` holds its entries as functions over an arbitrary
binder state `σ`, and a `World σ` pairs that state with the trace of the table entries
invoked so far.  The wrappers are transcribed over worlds; each table invocation appends
one `Call` to the trace.

Conventions of the embedding:

* a pointer or opaque handle is a `Nat` address, `0` being the null pointer;
* an array reached through a pointer is a function from offsets to cells;
* an output argument of a table entry is described by what the entry stores through it
  (`none` when it stores nothing);
* an automatic variable without initialiser takes its indeterminate initial content as
  an extra argument of the embedded function;
* the arrays and locals of the glue functions are not part of the binder state: a table
  entry changes them only through the output arguments it is given;
* a status or mask of type `int` is an `Int`, a count of type `unsigned` or `size_t` a
  `Nat`; the only arithmetic on them is `index++` below `count`, `--index` above `0` and
  the shift and mask of the log level tests, none of which wraps for the inputs treated;
* the global `afbBindingV4root` is an explicit argument of the functions that read it;
* a string or a callback is the address passed for it; the runs of a callback by the
  binder are part of the outcome of the table entry that received it.
-/

namespace AfbGlue

/-- Address held by a C pointer or opaque handle (`afb_data_t`, `afb_type_t`,
`afb_req_t`, `afb_api_t`, `void *`); `0` is the null pointer. -/
abbrev Handle := Nat

/-- Array reached through a pointer: the cell found at each offset from the pointer. -/
abbrev CArray := Nat → Handle

/-- Outcome of the table entries `data_get_mutable` and `data_get_constant`: the status
and what was stored through the two output arguments. -/
structure GetOut where
  rc : Int
  pointer : Option Handle
  size : Option Nat
deriving DecidableEq

/-- Outcome of the table entry `data_convert`: the status and what was stored through
the `result` output argument. -/
structure ConvOut where
  rc : Int
  result : Option Handle
deriving DecidableEq

/-- Outcome of the table entries `api_call_sync` and `req_subcall_sync`: the return code,
what was stored through `status` and `nreplies`, and the objects stored in `replies[0]`,
`replies[1]`, ... -/
structure SyncOut where
  rc : Int
  status : Option Int
  nreplies : Option Nat
  replies : List Handle
deriving DecidableEq

/-- Outcome of the table entry `req_cookie_getinit`: the status, what was stored through
`value`, and how many times the binder ran the initialiser `initcb` meanwhile. -/
structure CookieOut where
  rc : Int
  value : Option Handle
  initcb_runs : Nat
deriving DecidableEq

/-- One invocation of an entry of the interface table, with the arguments it received.
For an output argument only whether it was non-null is recorded (for `nreplies`, which
is read as well as written, the content of the cell); for an input array the cells below
the element count passed along with it.  The last constructor is not a table entry: it
records that the binder ran the initialiser given to `req_cookie_getinit`. -/
inductive Call where
  | data_addref (data : Handle)
  | data_unref (data : Handle)
  | data_get_mutable (data : Handle) (pointer size : Bool)
  | data_get_constant (data : Handle) (pointer size : Bool)
  | data_convert (data type : Handle)
  | req_logmask (req : Handle)
  | req_reply (req : Handle) (status : Int) (nreplies : Nat) (replies : List Handle)
  | type_add_converter (fromtype totype converter closure : Handle)
  | api_logmask (api : Handle)
  | type_add_updater (fromtype totype updater closure : Handle)
  | data_lock_read (data : Handle)
  | data_try_lock_read (data : Handle)
  | data_lock_write (data : Handle)
  | data_try_lock_write (data : Handle)
  | data_unlock (data : Handle)
  | api_call_sync (api apiname verbname : Handle) (nparams : Nat) (params : List Handle)
      (status : Bool) (nreplies : Option Nat) (replies : Bool)
  | req_subcall_sync (req apiname verbname : Handle) (nparams : Nat) (params : List Handle)
      (flags : Int) (status : Bool) (nreplies : Option Nat) (replies : Bool)
  | job_post (root : Handle) (delayms timeout : Int) (callback argument group : Handle)
  | job_abort (root : Handle) (jobid : Int)
  | req_cookie_getinit (req : Handle) (value : Bool) (initcb closure : Handle)
  | run_initcb (initcb closure : Handle)
deriving DecidableEq

/-- The entries of `struct afb_binding_x4r1_itf` used below, over a binder state `σ`.
The two booleans of `data_get_mutable` and `data_get_constant` tell whether the
`pointer` and `size` output arguments are non-null; likewise the booleans of
`api_call_sync`, `req_subcall_sync` and `req_cookie_getinit` for `status`, `replies` and
`value`, while `nreplies` comes with the content of its cell (`none` when null). -/
structure Itf (σ : Type) where
  data_addref : Handle → σ → Handle × σ
  data_unref : Handle → σ → σ
  data_get_mutable : Handle → Bool → Bool → σ → GetOut × σ
  data_get_constant : Handle → Bool → Bool → σ → GetOut × σ
  data_convert : Handle → Handle → σ → ConvOut × σ
  req_logmask : Handle → σ → Int × σ
  req_reply : Handle → Int → Nat → CArray → σ → σ
  type_add_converter : Handle → Handle → Handle → Handle → σ → Int × σ
  api_logmask : Handle → σ → Int × σ
  type_add_updater : Handle → Handle → Handle → Handle → σ → Int × σ
  data_lock_read : Handle → σ → σ
  data_try_lock_read : Handle → σ → Int × σ
  data_lock_write : Handle → σ → σ
  data_try_lock_write : Handle → σ → Int × σ
  data_unlock : Handle → σ → σ
  api_call_sync : Handle → Handle → Handle → Nat → CArray → Bool → Option Nat → Bool → σ →
    SyncOut × σ
  req_subcall_sync : Handle → Handle → Handle → Nat → CArray → Int → Bool → Option Nat →
    Bool → σ → SyncOut × σ
  job_post : Handle → Int → Int → Handle → Handle → Handle → σ → Int × σ
  job_abort : Handle → Int → σ → Int × σ
  req_cookie_getinit : Handle → Bool → Handle → Handle → σ → CookieOut × σ

/-- The binder state together with the trace of table invocations, oldest first. -/
structure World (σ : Type) where
  st : σ
  calls : List Call

variable {σ : Type}

/-- World reached when a table entry was invoked: new binder state, one more call. -/
def World.invoke (w : World σ) (c : Call) (s : σ) : World σ :=
  { st := s, calls := w.calls ++ [c] }

/-- Content of an output cell after a table entry ran: a null output (`none`) stays
null, otherwise the cell holds what the entry stored, or its previous content. -/
def storeOut {α : Type} (cell : Option α) (stored : Option α) : Option α :=
  cell.map (fun old => stored.getD old)

/-- Source `afb_data_addref`. -/
def afb_data_addref (itf : Itf σ) (data : Handle) (w : World σ) : Handle × World σ :=
  let r := itf.data_addref data w.st
  (r.1, w.invoke (Call.data_addref data) r.2)

/-- Source `afb_data_unref`. -/
def afb_data_unref (itf : Itf σ) (data : Handle) (w : World σ) : World σ :=
  w.invoke (Call.data_unref data) (itf.data_unref data w.st)

/-- Source `afb_data_convert`, called with a non-null `result`; the argument `result`
is the content of the cell pointed to, the second component its content on return. -/
def afb_data_convert (itf : Itf σ) (data type : Handle) (result : Handle) (w : World σ) :
    Int × Handle × World σ :=
  let r := itf.data_convert data type w.st
  (r.1.rc, r.1.result.getD result, w.invoke (Call.data_convert data type) r.2)

/-- What `afb_data_get_mutable` and `afb_data_get_constant` leave behind: the status,
the two output cells (`none` for a null output) and the world. -/
structure GetResult (σ : Type) where
  rc : Int
  pointer : Option Handle
  size : Option Nat
  world : World σ

/-- Source `afb_data_get_mutable`; `pointer` and `size` are `none` for a null output
argument and `some c` for a cell holding `c`. -/
def afb_data_get_mutable (itf : Itf σ) (data : Handle) (pointer : Option Handle)
    (size : Option Nat) (w : World σ) : GetResult σ :=
  let r := itf.data_get_mutable data pointer.isSome size.isSome w.st
  { rc := r.1.rc
    pointer := storeOut pointer r.1.pointer
    size := storeOut size r.1.size
    world := w.invoke (Call.data_get_mutable data pointer.isSome size.isSome) r.2 }

/-- Source `afb_data_get_constant`; arguments as for `afb_data_get_mutable`. -/
def afb_data_get_constant (itf : Itf σ) (data : Handle) (pointer : Option Handle)
    (size : Option Nat) (w : World σ) : GetResult σ :=
  let r := itf.data_get_constant data pointer.isSome size.isSome w.st
  { rc := r.1.rc
    pointer := storeOut pointer r.1.pointer
    size := storeOut size r.1.size
    world := w.invoke (Call.data_get_constant data pointer.isSome size.isSome) r.2 }

/-- Source `afb_data_size`; `sz` is the initial content of the local `sz`. -/
def afb_data_size (itf : Itf σ) (data : Handle) (sz : Nat) (w : World σ) : Nat × World σ :=
  let r := afb_data_get_constant itf data none (some sz) w
  (r.size.getD sz, r.world)

/-- Source `afb_data_ro_pointer`; `ptr` is the initial content of the local `ptr`. -/
def afb_data_ro_pointer (itf : Itf σ) (data : Handle) (ptr : Handle) (w : World σ) :
    Handle × World σ :=
  let r := afb_data_get_constant itf data (some ptr) none w
  (r.pointer.getD ptr, r.world)

/-- Source `afb_data_rw_pointer`; `ptr` is the initial content of the local `ptr`. -/
def afb_data_rw_pointer (itf : Itf σ) (data : Handle) (ptr : Handle) (w : World σ) :
    Handle × World σ :=
  let r := afb_data_get_mutable itf data (some ptr) none w
  (r.pointer.getD ptr, r.world)

/-- Source `afb_data_array_addref`: `while (count--) afb_data_addref(*array++);`. -/
def afb_data_array_addref (itf : Itf σ) : Nat → CArray → World σ → World σ
  | 0, _, w => w
  | count + 1, array, w =>
    afb_data_array_addref itf count (fun i => array (i + 1)) (afb_data_addref itf (array 0) w).2

/-- Source `afb_data_array_unref`: `while (count--) afb_data_unref(*array++);`. -/
def afb_data_array_unref (itf : Itf σ) : Nat → CArray → World σ → World σ
  | 0, _, w => w
  | count + 1, array, w =>
    afb_data_array_unref itf count (fun i => array (i + 1)) (afb_data_unref itf (array 0) w)

/-- The variables of `afb_data_array_convert` that change while it runs. -/
structure ConvertState (σ : Type) where
  rc : Int
  index : Nat
  array_result : CArray
  world : World σ

/-- First inner loop of `afb_data_array_convert`:
`while (index) afb_data_unref(array_result[--index]);`. -/
def unrefLoop (itf : Itf σ) : Nat → CArray → World σ → Nat × World σ
  | 0, _, w => (0, w)
  | index + 1, array_result, w =>
    unrefLoop itf index array_result (afb_data_unref itf (array_result index) w)

/-- Second inner loop of `afb_data_array_convert`:
`while (index < count) array_result[index++] = 0;`. -/
def clearLoop (count : Nat) (index : Nat) (array_result : CArray) : Nat × CArray :=
  if index < count then
    clearLoop count (index + 1) (Function.update array_result index 0)
  else
    (index, array_result)
termination_by count - index

/-- Outer loop of `afb_data_array_convert`, from the loop test onwards. -/
def convertLoop (itf : Itf σ) (count : Nat) (array_data array_type : CArray)
    (s : ConvertState σ) : ConvertState σ :=
  if hloop : 0 ≤ s.rc ∧ s.index < count then
    let r := afb_data_convert itf (array_data s.index) (array_type s.index)
      (s.array_result s.index) s.world
    let array_result := Function.update s.array_result s.index r.2.1
    if hrc : 0 ≤ r.1 then
      convertLoop itf count array_data array_type
        { rc := r.1, index := s.index + 1, array_result := array_result, world := r.2.2 }
    else
      let u := unrefLoop itf s.index array_result r.2.2
      let c := clearLoop count u.1 array_result
      convertLoop itf count array_data array_type
        { rc := r.1, index := c.1, array_result := c.2, world := u.2 }
  else
    s
termination_by (if 0 ≤ s.rc then 1 else 0, count - s.index)
decreasing_by
  · have h1 := hloop.1
    simp only [h1, hrc, if_true]
    exact Prod.Lex.right _ (Nat.sub_lt_sub_left hloop.2 (Nat.lt_succ_self _))
  · have h1 := hloop.1
    simp only [h1, hrc, if_true, if_false]
    exact Prod.Lex.left _ _ (by omega)

/-- Source `afb_data_array_convert`; returns the status, the result array and the
world. -/
def afb_data_array_convert (itf : Itf σ) (count : Nat) (array_data array_type : CArray)
    (array_result : CArray) (w : World σ) : Int × CArray × World σ :=
  let s := convertLoop itf count array_data array_type
    { rc := 0, index := 0, array_result := array_result, world := w }
  (s.rc, s.array_result, s.world)

/-- Source `afb_req_logmask`. -/
def afb_req_logmask (itf : Itf σ) (req : Handle) (w : World σ) : Int × World σ :=
  let r := itf.req_logmask req w.st
  (r.1, w.invoke (Call.req_logmask req) r.2)

/-- Source `afb_api_logmask`. -/
def afb_api_logmask (itf : Itf σ) (api : Handle) (w : World σ) : Int × World σ :=
  let r := itf.api_logmask api w.st
  (r.1, w.invoke (Call.api_logmask api) r.2)

/-- The C expression `1 << level` on the 32-bit `int`: defined when `level` is not
negative and the result `2 ^ level` fits, that is for `0 ≤ level < 31`. -/
def shiftLeftOne (level : Int) : Option Int :=
  if 0 ≤ level ∧ level < 31 then some (1 <<< level) else none

/-- Source `afb_req_wants_log_level`:
`return ((afb_req_logmask(req)) & (1 << (level)));`.  The result is `none` where the
shift is undefined.  The bitwise and of two `int` is that of their two's complement
readings, which `Int.land` computes. -/
def afb_req_wants_log_level (itf : Itf σ) (req : Handle) (level : Int) (w : World σ) :
    Option (Int × World σ) :=
  let r := afb_req_logmask itf req w
  (shiftLeftOne level).map (fun bit => (Int.land r.1 bit, r.2))

/-- Source `afb_api_wants_log_level`:
`return ((afb_api_logmask(api)) & (1 << (level)));`. -/
def afb_api_wants_log_level (itf : Itf σ) (api : Handle) (level : Int) (w : World σ) :
    Option (Int × World σ) :=
  let r := afb_api_logmask itf api w
  (shiftLeftOne level).map (fun bit => (Int.land r.1 bit, r.2))

/-- Source `afb_req_reply`; it returns nothing. -/
def afb_req_reply (itf : Itf σ) (req : Handle) (status : Int) (nreplies : Nat)
    (replies : CArray) (w : World σ) : World σ :=
  w.invoke (Call.req_reply req status nreplies ((List.range nreplies).map replies))
    (itf.req_reply req status nreplies replies w.st)

/-- Source `afb_type_add_convert_to`. -/
def afb_type_add_convert_to (itf : Itf σ) (type to_type converter closure : Handle)
    (w : World σ) : Int × World σ :=
  let r := itf.type_add_converter type to_type converter closure w.st
  (r.1, w.invoke (Call.type_add_converter type to_type converter closure) r.2)

/-- Source `afb_type_add_convert_from`. -/
def afb_type_add_convert_from (itf : Itf σ) (type from_type converter closure : Handle)
    (w : World σ) : Int × World σ :=
  let r := itf.type_add_converter from_type type converter closure w.st
  (r.1, w.invoke (Call.type_add_converter from_type type converter closure) r.2)

/-- Source `afb_type_add_update_to`. -/
def afb_type_add_update_to (itf : Itf σ) (type to_type updater closure : Handle)
    (w : World σ) : Int × World σ :=
  let r := itf.type_add_updater type to_type updater closure w.st
  (r.1, w.invoke (Call.type_add_updater type to_type updater closure) r.2)

/-- Source `afb_type_add_update_from`. -/
def afb_type_add_update_from (itf : Itf σ) (type from_type updater closure : Handle)
    (w : World σ) : Int × World σ :=
  let r := itf.type_add_updater from_type type updater closure w.st
  (r.1, w.invoke (Call.type_add_updater from_type type updater closure) r.2)

/-- Source `afb_data_lock_read`. -/
def afb_data_lock_read (itf : Itf σ) (data : Handle) (w : World σ) : World σ :=
  w.invoke (Call.data_lock_read data) (itf.data_lock_read data w.st)

/-- Source `afb_data_try_lock_read`. -/
def afb_data_try_lock_read (itf : Itf σ) (data : Handle) (w : World σ) : Int × World σ :=
  let r := itf.data_try_lock_read data w.st
  (r.1, w.invoke (Call.data_try_lock_read data) r.2)

/-- Source `afb_data_lock_write`. -/
def afb_data_lock_write (itf : Itf σ) (data : Handle) (w : World σ) : World σ :=
  w.invoke (Call.data_lock_write data) (itf.data_lock_write data w.st)

/-- Source `afb_data_try_lock_write`. -/
def afb_data_try_lock_write (itf : Itf σ) (data : Handle) (w : World σ) : Int × World σ :=
  let r := itf.data_try_lock_write data w.st
  (r.1, w.invoke (Call.data_try_lock_write data) r.2)

/-- Source `afb_data_unlock`. -/
def afb_data_unlock (itf : Itf σ) (data : Handle) (w : World σ) : World σ :=
  w.invoke (Call.data_unlock data) (itf.data_unlock data w.st)

/-- Source `afb_data_assign`: `afb_data_unref(*data); *data = value;`.  The argument
`data` is the content of the slot pointed to, the first component of the result its
content on return. -/
def afb_data_assign (itf : Itf σ) (data : Handle) (value : Handle) (w : World σ) :
    Handle × World σ :=
  let w1 := afb_data_unref itf data w
  (value, w1)

/-- Source `afb_data_is_valid`: `return data != 0;`.  No table entry is involved: the
world is handed back as it is. -/
def afb_data_is_valid (data : Handle) (w : World σ) : Int × World σ :=
  (if data ≠ 0 then 1 else 0, w)

/-- The C operator `!` on a pointer or an `int`: `1` for null or zero, else `0`. -/
def logicalNot {α : Type} [Zero α] [DecidableEq α] (x : α) : Int :=
  if x = 0 then 1 else 0

/-- Source `afb_req_is_valid`: `return !!req;`. -/
def afb_req_is_valid (req : Handle) (w : World σ) : Int × World σ :=
  (logicalNot (logicalNot req), w)

/-- Source `afb_event_is_valid`: `return !!event;`. -/
def afb_event_is_valid (event : Handle) (w : World σ) : Int × World σ :=
  (logicalNot (logicalNot event), w)

/-- What `afb_api_call_sync` and `afb_req_subcall_sync` leave behind: the return code,
the cells of `status` and `nreplies`, the array `replies` (each `none` for a null
argument) and the world. -/
structure SyncResult (σ : Type) where
  rc : Int
  status : Option Int
  nreplies : Option Nat
  replies : Option CArray
  world : World σ

/-- Content of an output array after a table entry ran: a null array stays null,
otherwise the leading cells hold the objects stored, the others their previous
content. -/
def storeArray (cells : Option CArray) (stored : List Handle) : Option CArray :=
  cells.map (fun old i => stored.getD i (old i))

/-- Source `afb_api_call_sync`; `status`, `nreplies` and `replies` are `none` for a null
argument, else the content of what is pointed to. -/
def afb_api_call_sync (itf : Itf σ) (api apiname verbname : Handle) (nparams : Nat)
    (params : CArray) (status : Option Int) (nreplies : Option Nat)
    (replies : Option CArray) (w : World σ) : SyncResult σ :=
  let r := itf.api_call_sync api apiname verbname nparams params status.isSome nreplies
    replies.isSome w.st
  { rc := r.1.rc
    status := storeOut status r.1.status
    nreplies := storeOut nreplies r.1.nreplies
    replies := storeArray replies r.1.replies
    world := w.invoke (Call.api_call_sync api apiname verbname nparams
      ((List.range nparams).map params) status.isSome nreplies replies.isSome) r.2 }

/-- Value of `afb_req_subcall_catch_events`, the first of `enum afb_req_subcall_flags`. -/
def afb_req_subcall_catch_events : Int := 1

/-- Value of `afb_req_subcall_pass_events`. -/
def afb_req_subcall_pass_events : Int := 2

/-- Value of `afb_req_subcall_on_behalf`. -/
def afb_req_subcall_on_behalf : Int := 4

/-- Value of `afb_req_subcall_api_session`. -/
def afb_req_subcall_api_session : Int := 8

/-- Source `afb_req_subcall_sync`; outputs as for `afb_api_call_sync`. -/
def afb_req_subcall_sync (itf : Itf σ) (req apiname verbname : Handle) (nparams : Nat)
    (params : CArray) (flags : Int) (status : Option Int) (nreplies : Option Nat)
    (replies : Option CArray) (w : World σ) : SyncResult σ :=
  let r := itf.req_subcall_sync req apiname verbname nparams params flags status.isSome
    nreplies replies.isSome w.st
  { rc := r.1.rc
    status := storeOut status r.1.status
    nreplies := storeOut nreplies r.1.nreplies
    replies := storeArray replies r.1.replies
    world := w.invoke (Call.req_subcall_sync req apiname verbname nparams
      ((List.range nparams).map params) flags status.isSome nreplies replies.isSome) r.2 }

/-- Source `afb_job_post`; the first argument is the global `afbBindingV4root`. -/
def afb_job_post (itf : Itf σ) (afbBindingV4root : Handle) (delayms timeout : Int)
    (callback argument group : Handle) (w : World σ) : Int × World σ :=
  let r := itf.job_post afbBindingV4root delayms timeout callback argument group w.st
  (r.1, w.invoke (Call.job_post afbBindingV4root delayms timeout callback argument group) r.2)

/-- Source `afb_job_abort`; the first argument is the global `afbBindingV4root`. -/
def afb_job_abort (itf : Itf σ) (afbBindingV4root : Handle) (jobid : Int) (w : World σ) :
    Int × World σ :=
  let r := itf.job_abort afbBindingV4root jobid w.st
  (r.1, w.invoke (Call.job_abort afbBindingV4root jobid) r.2)

/-- Source `afb_get_logmask`: `return afb_api_logmask(afbBindingV4root);`; the first
argument is the global `afbBindingV4root`. -/
def afb_get_logmask (itf : Itf σ) (afbBindingV4root : Handle) (w : World σ) : Int × World σ :=
  afb_api_logmask itf afbBindingV4root w

/-- Source `afb_req_context`; `ptrval` is `none` for a null argument, else the content of
the cell.  The trace receives the `req_cookie_getinit` invocation followed by the runs
of `initcb` the binder made during it. -/
def afb_req_context (itf : Itf σ) (req : Handle) (ptrval : Option Handle)
    (initcb closure : Handle) (w : World σ) : Int × Option Handle × World σ :=
  let r := itf.req_cookie_getinit req ptrval.isSome initcb closure w.st
  (r.1.rc, storeOut ptrval r.1.value,
    { st := r.2
      calls := w.calls ++ Call.req_cookie_getinit req ptrval.isSome initcb closure ::
        List.replicate r.1.initcb_runs (Call.run_initcb initcb closure) })

/-- Test of the outer loop of `afb_data_array_convert`: `rc >= 0 && index < count`. -/
def convertTest (count : Nat) (s : ConvertState σ) : Bool :=
  decide (0 ≤ s.rc) && decide (s.index < count)

/-- Body of the outer loop of `afb_data_array_convert`: one turn of the loop. -/
def convertBody (itf : Itf σ) (count : Nat) (array_data array_type : CArray)
    (s : ConvertState σ) : ConvertState σ :=
  let r := afb_data_convert itf (array_data s.index) (array_type s.index)
    (s.array_result s.index) s.world
  let array_result := Function.update s.array_result s.index r.2.1
  if 0 ≤ r.1 then
    { rc := r.1, index := s.index + 1, array_result := array_result, world := r.2.2 }
  else
    let u := unrefLoop itf s.index array_result r.2.2
    let c := clearLoop count u.1 array_result
    { rc := r.1, index := c.1, array_result := c.2, world := u.2 }

/-! ## Vocabulary of the statements

The table is a parameter, so what it does "for index `i`" during a run of
`afb_data_array_convert` is read off the table itself: `convertState` threads the binder
state through the conversions in index order, `convertOut` is the outcome of the
conversion of index `i` in that run. -/

/-- Binder state once the table's `data_convert` ran for the indexes below `n`, in
increasing order, starting in state `s`. -/
def convertState (itf : Itf σ) (array_data array_type : CArray) (s : σ) : Nat → σ
  | 0 => s
  | n + 1 =>
    (itf.data_convert (array_data n) (array_type n) (convertState itf array_data array_type s n)).2

/-- Outcome of the table's `data_convert` for index `i`, run after those of the indexes
below `i`. -/
def convertOut (itf : Itf σ) (array_data array_type : CArray) (s : σ) (i : Nat) : ConvOut :=
  (itf.data_convert (array_data i) (array_type i) (convertState itf array_data array_type s i)).1

/-- Content of `array_result[i]` right after the conversion of index `i`: the object the
table stored there (the previous content if the table stored nothing). -/
def convertedObject (itf : Itf σ) (array_data array_type : CArray) (s : σ)
    (array_result : CArray) (i : Nat) : Handle :=
  (convertOut itf array_data array_type s i).result.getD (array_result i)

/-- The result array once the indexes below `n` are converted. -/
def convertedArray (itf : Itf σ) (array_data array_type : CArray) (s : σ)
    (array_result : CArray) (n : Nat) : CArray :=
  fun i => if i < n then convertedObject itf array_data array_type s array_result i
    else array_result i

/-- Loop state of `afb_data_array_convert` at the loop test, once the indexes below `m`
are converted with success. -/
def convertUpto (itf : Itf σ) (array_data array_type : CArray) (array_result : CArray)
    (w : World σ) (m : Nat) : ConvertState σ :=
  { rc := match m with
      | 0 => 0
      | n + 1 => (convertOut itf array_data array_type w.st n).rc
    index := m
    array_result := convertedArray itf array_data array_type w.st array_result m
    world :=
      { st := convertState itf array_data array_type w.st m
        calls := w.calls ++
          (List.range m).map (fun i => Call.data_convert (array_data i) (array_type i)) } }

/-- The table invocations made on the way from world `w` to world `w2`. -/
def callsSince (w w2 : World σ) : List Call :=
  w2.calls.drop w.calls.length

/-- The handle released, for an invocation of `data_unref`. -/
def Call.unrefTarget : Call → Option Handle
  | Call.data_unref data => some data
  | _ => none

/-- The data and type converted, for an invocation of `data_convert`. -/
def Call.convertArgs : Call → Option (Handle × Handle)
  | Call.data_convert data type => some (data, type)
  | _ => none

/-- Whether an invocation is one of the five lock entries of the table. -/
def Call.isLock : Call → Bool
  | Call.data_lock_read _ => true
  | Call.data_try_lock_read _ => true
  | Call.data_lock_write _ => true
  | Call.data_try_lock_write _ => true
  | Call.data_unlock _ => true
  | _ => false

/-- Whether a trace item is a run of a cookie initialiser. -/
def Call.isInitcbRun : Call → Bool
  | Call.run_initcb _ _ => true
  | _ => false

/-- The flags word of a set of subcall flags: the bitwise or of the flags present. -/
def subcallFlagsWord (catch_events pass_events on_behalf api_session : Bool) : Int :=
  Int.lor (if catch_events then afb_req_subcall_catch_events else 0)
    (Int.lor (if pass_events then afb_req_subcall_pass_events else 0)
      (Int.lor (if on_behalf then afb_req_subcall_on_behalf else 0)
        (if api_session then afb_req_subcall_api_session else 0)))

/-- A sequence of `afb_req_context` calls on the request `req`, one per item of `args`
(the content of `ptrval`, `initcb` and `closure` of each call), in order. -/
def contextCalls (itf : Itf σ) (req : Handle) :
    List (Option Handle × Handle × Handle) → World σ → World σ
  | [], w => w
  | a :: args, w => contextCalls itf req args (afb_req_context itf req a.1 a.2.1 a.2.2 w).2.2

/-- Number of runs of a cookie initialiser in a trace. -/
def initcbRuns (calls : List Call) : Nat :=
  (calls.filter Call.isInitcbRun).length

/-! ## Tables used as examples -/

/-- The table whose entries do nothing: the state is left as it is, every status is `0`,
nothing is stored through an output argument, `data_addref` returns its argument. -/
def idleItf (σ : Type) : Itf σ :=
  { data_addref := fun data s => (data, s)
    data_unref := fun _ s => s
    data_get_mutable := fun _ _ _ s => ({ rc := 0, pointer := none, size := none }, s)
    data_get_constant := fun _ _ _ s => ({ rc := 0, pointer := none, size := none }, s)
    data_convert := fun _ _ s => ({ rc := 0, result := none }, s)
    req_logmask := fun _ s => (0, s)
    req_reply := fun _ _ _ _ s => s
    type_add_converter := fun _ _ _ _ s => (0, s)
    api_logmask := fun _ s => (0, s)
    type_add_updater := fun _ _ _ _ s => (0, s)
    data_lock_read := fun _ s => s
    data_try_lock_read := fun _ s => (0, s)
    data_lock_write := fun _ s => s
    data_try_lock_write := fun _ s => (0, s)
    data_unlock := fun _ s => s
    api_call_sync := fun _ _ _ _ _ _ _ _ s =>
      ({ rc := 0, status := none, nreplies := none, replies := [] }, s)
    req_subcall_sync := fun _ _ _ _ _ _ _ _ _ s =>
      ({ rc := 0, status := none, nreplies := none, replies := [] }, s)
    job_post := fun _ _ _ _ _ _ s => (0, s)
    job_abort := fun _ _ s => (0, s)
    req_cookie_getinit := fun _ _ _ _ s => ({ rc := 0, value := none, initcb_runs := 0 }, s) }

/-- A small converter: the state counts the objects created so far; converting to type
`0` fails with `-22` and stores null, any other conversion creates the object `1000 + s`
(status `1` for type `2`, else `0`). -/
def demoItf : Itf Nat :=
  { idleItf Nat with
    data_convert := fun _ type s =>
      if type = 0 then ({ rc := -22, result := some 0 }, s)
      else ({ rc := if type = 2 then 1 else 0, result := some (1000 + s) }, s + 1) }

/-- A table that keeps reference counts: the state gives the count of each handle,
`data_addref` adds one to the count of its argument, `data_unref` takes one off. -/
def countItf : Itf (Handle → Nat) :=
  { idleItf (Handle → Nat) with
    data_addref := fun data s => (data, Function.update s data (s data + 1))
    data_unref := fun data s => Function.update s data (s data - 1) }

/-- A table that delivers every reply it is given: the state lists the replies delivered,
each with its request, status and payload. -/
def recordItf : Itf (List (Handle × Int × List Handle)) :=
  { idleItf (List (Handle × Int × List Handle)) with
    req_reply := fun req status nreplies replies s =>
      s ++ [(req, status, (List.range nreplies).map replies)] }

/-- A table whose data accessors fail with status `rc` and store what is given. -/
def failItf (rc : Int) (pointer : Option Handle) (size : Option Nat) : Itf Unit :=
  { idleItf Unit with
    data_get_mutable := fun _ _ _ s => ({ rc := rc, pointer := pointer, size := size }, s)
    data_get_constant := fun _ _ _ s => ({ rc := rc, pointer := pointer, size := size }, s) }

/-- A table for one object with an `8` byte buffer at address `4096`; the state tells
whether the object is marked constant.  `data_get_constant` succeeds and fills the
non-null outputs; `data_get_mutable` does the same unless the object is constant, where
it fails with `-22` and stores nothing. -/
def bufferItf : Itf Bool :=
  { idleItf Bool with
    data_get_constant := fun _ pointer size s =>
      ({ rc := 0, pointer := if pointer then some 4096 else none,
         size := if size then some 8 else none }, s)
    data_get_mutable := fun _ pointer size s =>
      if s then ({ rc := -22, pointer := none, size := none }, s)
      else ({ rc := 0, pointer := if pointer then some 4096 else none,
              size := if size then some 8 else none }, s) }

/-- A table whose log masks are `0x58`: the levels `3`, `4` and `6`. -/
def maskItf : Itf Unit :=
  { idleItf Unit with
    req_logmask := fun _ s => (88, s)
    api_logmask := fun _ s => (88, s) }

/-- A binder whose synchronous calls reach a verb replying with status `0` and the one
data object `42`; the state counts the calls made. -/
def replyItf : Itf Nat :=
  { idleItf Nat with
    api_call_sync := fun _ _ _ _ _ _ _ _ s =>
      ({ rc := 0, status := some 0, nreplies := some 1, replies := [42] }, s + 1)
    req_subcall_sync := fun _ _ _ _ _ _ _ _ _ s =>
      ({ rc := 0, status := some 0, nreplies := some 1, replies := [42] }, s + 1) }

/-- A binder that runs the initialiser at every `req_cookie_getinit`, whether or not the
request already has a cookie; the state counts the runs. -/
def eagerCookieItf : Itf Nat :=
  { idleItf Nat with
    req_cookie_getinit := fun _ _ _ _ s =>
      ({ rc := 1, value := some (500 + s), initcb_runs := 1 }, s + 1) }

/-- A binder that keeps the cookie of each request: `req_cookie_getinit` runs the
initialiser once for a request without cookie and stores the cookie `500 + req`, and
only reads the cookie of a request that has one. -/
def cookieItf : Itf (Handle → Option Handle) :=
  { idleItf (Handle → Option Handle) with
    req_cookie_getinit := fun req _ _ _ s =>
      match s req with
      | some v => ({ rc := 0, value := some v, initcb_runs := 0 }, s)
      | none =>
        ({ rc := 1, value := some (500 + req), initcb_runs := 1 },
          Function.update s req (some (500 + req))) }

/-! ## The loops of `afb_data_array_convert` -/

/-- The loop of `afb_data_array_convert` is left when its test fails. -/
theorem convertLoop_exit (itf : Itf σ) (count : Nat) (array_data array_type : CArray)
    (s : ConvertState σ) (h : ¬(0 ≤ s.rc ∧ s.index < count)) :
    convertLoop itf count array_data array_type s = s := by
  rw [convertLoop, dif_neg h]

/-- One turn of the loop of `afb_data_array_convert` when the conversion succeeds. -/
theorem convertLoop_success (itf : Itf σ) (count : Nat) (array_data array_type : CArray)
    (s : ConvertState σ) (h : 0 ≤ s.rc ∧ s.index < count)
    (hrc : 0 ≤ (itf.data_convert (array_data s.index) (array_type s.index) s.world.st).1.rc) :
    convertLoop itf count array_data array_type s =
      convertLoop itf count array_data array_type
        { rc := (itf.data_convert (array_data s.index) (array_type s.index) s.world.st).1.rc
          index := s.index + 1
          array_result := Function.update s.array_result s.index
            ((itf.data_convert (array_data s.index) (array_type s.index)
              s.world.st).1.result.getD (s.array_result s.index))
          world := s.world.invoke (Call.data_convert (array_data s.index) (array_type s.index))
            (itf.data_convert (array_data s.index) (array_type s.index) s.world.st).2 } := by
  rw [convertLoop, dif_pos h]
  simp only [afb_data_convert]
  rw [dif_pos hrc]

/-- The first inner loop releases the cells below `index`, from the last to the first. -/
theorem unrefLoop_eq (itf : Itf σ) (array_result : CArray) :
    ∀ (index : Nat) (w : World σ),
      unrefLoop itf index array_result w =
        (0, { st := ((List.range index).reverse.map array_result).foldl
                (fun s d => itf.data_unref d s) w.st
              calls := w.calls ++
                ((List.range index).reverse.map array_result).map Call.data_unref })
  | 0, w => by simp [unrefLoop]
  | index + 1, w => by
    rw [unrefLoop, unrefLoop_eq itf array_result index]
    simp [List.range_succ, afb_data_unref, World.invoke]

/-- The second inner loop writes null in the cells from `index` to `count - 1`. -/
theorem clearLoop_eq (count : Nat) :
    ∀ (n index : Nat) (array_result : CArray), index + n = count →
      clearLoop count index array_result =
        (count, fun i => if index ≤ i ∧ i < count then 0 else array_result i)
  | 0, index, array_result, h => by
    rw [clearLoop, if_neg (by omega)]
    have : index = count := by omega
    subst this
    congr 1
    funext i
    rw [if_neg (by omega)]
  | n + 1, index, array_result, h => by
    rw [clearLoop, if_pos (by omega), clearLoop_eq count n (index + 1) _ (by omega)]
    congr 1
    funext i
    by_cases hi : i = index
    · subst hi
      rw [if_neg (by omega), Function.update_same, if_pos ⟨le_refl _, by omega⟩]
    · simp only [Function.update_apply, if_neg hi]
      by_cases h2 : index ≤ i ∧ i < count
      · rw [if_pos h2, if_pos (by omega)]
      · rw [if_neg h2, if_neg (by omega)]

/-- The turn of the loop of `afb_data_array_convert` in which the conversion fails: the
cells below `index` are released, the `count` cells are cleared and the loop is left. -/
theorem convertLoop_failure (itf : Itf σ) (count : Nat) (array_data array_type : CArray)
    (s : ConvertState σ) (h : 0 ≤ s.rc ∧ s.index < count)
    (hrc : (itf.data_convert (array_data s.index) (array_type s.index) s.world.st).1.rc < 0) :
    convertLoop itf count array_data array_type s =
      { rc := (itf.data_convert (array_data s.index) (array_type s.index) s.world.st).1.rc
        index := count
        array_result := fun i => if i < count then 0 else s.array_result i
        world :=
          { st := ((List.range s.index).reverse.map s.array_result).foldl
              (fun t d => itf.data_unref d t)
              (itf.data_convert (array_data s.index) (array_type s.index) s.world.st).2
            calls := s.world.calls ++
              [Call.data_convert (array_data s.index) (array_type s.index)] ++
              ((List.range s.index).reverse.map s.array_result).map Call.data_unref } } := by
  have hmap : ∀ v, (List.range s.index).reverse.map (Function.update s.array_result s.index v)
      = (List.range s.index).reverse.map s.array_result := by
    intro v
    apply List.map_congr_left
    intro i hi
    have : i < s.index := by simpa using hi
    rw [Function.update_noteq (by omega)]
  rw [convertLoop, dif_pos h]
  simp only [afb_data_convert]
  rw [dif_neg (not_le.2 hrc), convertLoop_exit _ _ _ _ _ (by simp only [not_and]; intro h0; omega)]
  simp only [unrefLoop_eq, clearLoop_eq count count 0 _ (by omega), hmap, World.invoke]
  congr 1
  funext i
  by_cases hi : i < count
  · simp [hi]
  · simp only [hi, and_false, if_false]
    rw [Function.update_noteq (by omega)]

/-- While the conversions succeed the loop reaches the states `convertUpto`. -/
theorem convertLoop_upto (itf : Itf σ) (count : Nat) (array_data array_type : CArray)
    (array_result : CArray) (w : World σ) :
    ∀ m, m ≤ count → (∀ i, i < m → 0 ≤ (convertOut itf array_data array_type w.st i).rc) →
      convertLoop itf count array_data array_type
          { rc := 0, index := 0, array_result := array_result, world := w } =
        convertLoop itf count array_data array_type
          (convertUpto itf array_data array_type array_result w m)
  | 0, _, _ => by
    have h0 : convertedArray itf array_data array_type w.st array_result 0 = array_result := by
      funext i
      simp [convertedArray]
    simp [convertUpto, h0, convertState]
  | m + 1, hm, hok => by
    rw [convertLoop_upto itf count array_data array_type array_result w m (by omega)
      (fun i hi => hok i (by omega))]
    have hrc0 : 0 ≤ (convertUpto itf array_data array_type array_result w m).rc := by
      cases m with
      | zero => simp [convertUpto]
      | succ n => exact hok n (by omega)
    rw [convertLoop_success itf count array_data array_type _ ⟨hrc0, by simp [convertUpto]; omega⟩
      (hok m (by omega))]
    congr 1
    simp only [convertUpto, World.invoke, convertState, convertOut]
    congr 1
    · funext i
      simp only [convertedArray, convertedObject, Function.update_apply, convertOut]
      by_cases hi : i = m
      · subst hi
        simp
      · simp only [hi, if_false]
        by_cases h2 : i < m
        · rw [if_pos h2, if_pos (by omega)]
        · rw [if_neg h2, if_neg (by omega)]
    · simp [List.range_succ]

/-- Loop of `afb_data_array_convert` when every conversion succeeds. -/
theorem convertLoop_all (itf : Itf σ) (count : Nat) (array_data array_type : CArray)
    (array_result : CArray) (w : World σ)
    (hok : ∀ i, i < count → 0 ≤ (convertOut itf array_data array_type w.st i).rc) :
    convertLoop itf count array_data array_type
        { rc := 0, index := 0, array_result := array_result, world := w } =
      convertUpto itf array_data array_type array_result w count := by
  rw [convertLoop_upto itf count array_data array_type array_result w count (le_refl _) hok]
  exact convertLoop_exit _ _ _ _ _ (by simp [convertUpto])

/-- The invocations made since `w`, when the trace of `w2` extends that of `w`. -/
theorem callsSince_append (w w2 : World σ) (l : List Call) (h : w2.calls = w.calls ++ l) :
    callsSince w w2 = l := by
  simp [callsSince, h]

/-- Loop of `afb_data_array_convert` when the first failing conversion is that of index
`k`. -/
theorem convertLoop_fail_at (itf : Itf σ) (count : Nat) (array_data array_type : CArray)
    (array_result : CArray) (w : World σ) (k : Nat) (hk : k < count)
    (hok : ∀ i, i < k → 0 ≤ (convertOut itf array_data array_type w.st i).rc)
    (hfail : (convertOut itf array_data array_type w.st k).rc < 0) :
    convertLoop itf count array_data array_type
        { rc := 0, index := 0, array_result := array_result, world := w } =
      { rc := (convertOut itf array_data array_type w.st k).rc
        index := count
        array_result := fun i => if i < count then 0 else array_result i
        world :=
          { st := ((List.range k).reverse.map
                (convertedObject itf array_data array_type w.st array_result)).foldl
              (fun t d => itf.data_unref d t) (convertState itf array_data array_type w.st (k + 1))
            calls := w.calls ++
              (List.range (k + 1)).map (fun i => Call.data_convert (array_data i) (array_type i)) ++
              ((List.range k).reverse.map
                (convertedObject itf array_data array_type w.st array_result)).map
                Call.data_unref } } := by
  have hrc0 : 0 ≤ (convertUpto itf array_data array_type array_result w k).rc := by
    cases k with
    | zero => simp [convertUpto]
    | succ n => exact hok n (by omega)
  have hmap : (List.range k).reverse.map
      (convertedArray itf array_data array_type w.st array_result k) =
      (List.range k).reverse.map (convertedObject itf array_data array_type w.st array_result) := by
    apply List.map_congr_left
    intro i hi
    have : i < k := by simpa using hi
    simp [convertedArray, this]
  rw [convertLoop_upto itf count array_data array_type array_result w k (by omega) hok,
    convertLoop_failure itf count array_data array_type _ ⟨hrc0, hk⟩ hfail]
  simp only [convertUpto, hmap]
  congr 1
  · funext i
    by_cases hi : i < count
    · simp [hi]
    · simp only [hi, if_false, convertedArray]
      rw [if_neg (by omega)]
  · congr 1
    simp [List.range_succ]

/-- A run of invocations other than `data_unref` releases nothing. -/
theorem filterMap_unrefTarget_convert (f : Nat → Call)
    (hf : ∀ i, (f i).unrefTarget = none) (l : List Nat) :
    (l.map f).filterMap Call.unrefTarget = [] := by
  induction l with
  | nil => rfl
  | cons a l ih => simp [List.filterMap_cons, hf, ih]

/-- A run of `data_unref` invocations releases its arguments, in order. -/
theorem filterMap_unrefTarget_unref (l : List Handle) :
    (l.map Call.data_unref).filterMap Call.unrefTarget = l := by
  induction l with
  | nil => rfl
  | cons a l ih => simp [List.filterMap_cons, Call.unrefTarget, ih]

/-! ## C1 to C3: `afb_data_array_convert` -/

/-- C1. Success case of `afb_data_array_convert`: when the table's `data_convert` returns
a non-negative status for every index below `count`, the function invokes `data_convert`
once per index, in increasing index order, on `(array_data[i], array_type[i])` and
invokes nothing else (in particular never `data_unref`); `array_result[i]` holds what
the conversion of index `i` stored, the cells from `count` on are untouched; the status
returned is that of the last conversion, or `0` when `count` is `0`, in which case the
table is not invoked and nothing is written. -/
theorem afb_data_array_convert_success (itf : Itf σ) (count : Nat)
    (array_data array_type array_result : CArray) (w : World σ)
    (hok : ∀ i, i < count → 0 ≤ (convertOut itf array_data array_type w.st i).rc) :
    let r := afb_data_array_convert itf count array_data array_type array_result w
    r.2.2.calls = w.calls ++
        (List.range count).map (fun i => Call.data_convert (array_data i) (array_type i))
      ∧ r.2.2.st = convertState itf array_data array_type w.st count
      ∧ (∀ i, i < count →
          r.2.1 i = (convertOut itf array_data array_type w.st i).result.getD (array_result i))
      ∧ (∀ i, count ≤ i → r.2.1 i = array_result i)
      ∧ (∀ data, Call.data_unref data ∉ callsSince w r.2.2)
      ∧ r.1 = (if count = 0 then 0
          else (convertOut itf array_data array_type w.st (count - 1)).rc)
      ∧ (count = 0 → r = (0, array_result, w)) := by
  intro r
  have hr : r = ((convertUpto itf array_data array_type array_result w count).rc,
      (convertUpto itf array_data array_type array_result w count).array_result,
      (convertUpto itf array_data array_type array_result w count).world) := by
    simp only [r, afb_data_array_convert, convertLoop_all itf count array_data array_type
      array_result w hok]
  refine ⟨by rw [hr]; rfl, by rw [hr]; rfl, ?_, ?_, ?_, ?_, ?_⟩
  · intro i hi
    rw [hr]
    simp [convertUpto, convertedArray, convertedObject, hi]
  · intro i hi
    rw [hr]
    simp only [convertUpto, convertedArray]
    rw [if_neg (by omega)]
  · intro data
    rw [callsSince_append w r.2.2 _ (by rw [hr]; rfl)]
    simp
  · rw [hr]
    cases count with
    | zero => rfl
    | succ n => simp [convertUpto]
  · intro h0
    subst h0
    rw [hr]
    have h0 : convertedArray itf array_data array_type w.st array_result 0 = array_result := by
      funext i
      simp [convertedArray]
    simp [convertUpto, h0, convertState]

/-- Witness of C1: three conversions that all succeed, the second with status `1`. -/
theorem afb_data_array_convert_success_witness :
    (∀ i, i < 3 → 0 ≤ (convertOut demoItf (fun i => 10 + i) (fun i => i + 1) 0 i).rc)
      ∧ (afb_data_array_convert demoItf 3 (fun i => 10 + i) (fun i => i + 1) (fun _ => 7)
          { st := 0, calls := [] }).2.2.calls =
        [Call.data_convert 10 1, Call.data_convert 11 2, Call.data_convert 12 3] :=
  ⟨by decide,
    (afb_data_array_convert_success demoItf 3 (fun i => 10 + i) (fun i => i + 1) (fun _ => 7)
      { st := 0, calls := [] } (by decide)).1⟩

/-- C2. Failure case of `afb_data_array_convert`: when `k < count` (so `count` is at
least `1`) is the first index whose conversion returns a negative status, the function
returns exactly that status, the conversions attempted are those of the indexes `0` to
`k` and no other, and on return each of the `count` cells of `array_result` is null
(the cells from `count` on are untouched). -/
theorem afb_data_array_convert_failure (itf : Itf σ) (count : Nat)
    (array_data array_type array_result : CArray) (w : World σ) (k : Nat) (hk : k < count)
    (hok : ∀ i, i < k → 0 ≤ (convertOut itf array_data array_type w.st i).rc)
    (hfail : (convertOut itf array_data array_type w.st k).rc < 0) :
    let r := afb_data_array_convert itf count array_data array_type array_result w
    r.1 = (convertOut itf array_data array_type w.st k).rc
      ∧ r.1 < 0
      ∧ (callsSince w r.2.2).filterMap Call.convertArgs =
          (List.range (k + 1)).map (fun i => (array_data i, array_type i))
      ∧ (∀ i, i < count → r.2.1 i = 0)
      ∧ (∀ i, count ≤ i → r.2.1 i = array_result i) := by
  intro r
  have hr := convertLoop_fail_at itf count array_data array_type array_result w k hk hok hfail
  have hr1 : r.1 = (convertOut itf array_data array_type w.st k).rc := by
    simp only [r, afb_data_array_convert, hr]
  have hr2 : r.2.1 = fun i => if i < count then 0 else array_result i := by
    simp only [r, afb_data_array_convert, hr]
  have hr3 : r.2.2.calls = w.calls ++
      ((List.range (k + 1)).map (fun i => Call.data_convert (array_data i) (array_type i)) ++
      ((List.range k).reverse.map
        (convertedObject itf array_data array_type w.st array_result)).map Call.data_unref) := by
    simp only [r, afb_data_array_convert, hr, List.append_assoc]
  refine ⟨hr1, by rw [hr1]; exact hfail, ?_, ?_, ?_⟩
  · rw [callsSince_append w r.2.2 _ hr3, List.filterMap_append]
    have h1 : ∀ l : List Nat, (l.map (fun i => Call.data_convert (array_data i)
        (array_type i))).filterMap Call.convertArgs = l.map (fun i => (array_data i, array_type i)) := by
      intro l
      induction l with
      | nil => rfl
      | cons a l ih => simp [List.filterMap_cons, Call.convertArgs, ih]
    have h2 : ∀ l : List Handle, (l.map Call.data_unref).filterMap Call.convertArgs = [] := by
      intro l
      induction l with
      | nil => rfl
      | cons a l ih => simp [List.filterMap_cons, Call.convertArgs, ih]
    rw [h1, h2, List.append_nil]
  · intro i hi
    rw [hr2]
    simp [hi]
  · intro i hi
    rw [hr2]
    simp only []
    rw [if_neg (by omega)]

/-- Witness of C2: four conversions requested, the third (index `2`) has no conversion
path. -/
theorem afb_data_array_convert_failure_witness :
    (2 < 4)
      ∧ (∀ i, i < 2 →
          0 ≤ (convertOut demoItf (fun i => 10 + i) (fun i => if i = 2 then 0 else 1) 0 i).rc)
      ∧ (convertOut demoItf (fun i => 10 + i) (fun i => if i = 2 then 0 else 1) 0 2).rc < 0
      ∧ (afb_data_array_convert demoItf 4 (fun i => 10 + i) (fun i => if i = 2 then 0 else 1)
          (fun _ => 7) { st := 0, calls := [] }).1 = -22 :=
  ⟨by decide, by decide, by decide,
    (afb_data_array_convert_failure demoItf 4 (fun i => 10 + i)
      (fun i => if i = 2 then 0 else 1) (fun _ => 7) { st := 0, calls := [] } 2
      (by decide) (by decide) (by decide)).1⟩

/-- C3. `afb_data_array_convert` releases what it obtained when it fails: if the first
failing conversion is at index `k`, then after the `k + 1` conversions `data_unref` is
invoked exactly `k` times, on the contents of `array_result[k-1]`, ..., `array_result[0]`
in that order, which are the objects the conversions of these indexes stored, and on no
other handle; hence every handle is released as many times as a successful conversion
handed it over, and the caller is left with no net reference. -/
theorem afb_data_array_convert_releases (itf : Itf σ) (count : Nat)
    (array_data array_type array_result : CArray) (w : World σ) (k : Nat) (hk : k < count)
    (hok : ∀ i, i < k → 0 ≤ (convertOut itf array_data array_type w.st i).rc)
    (hfail : (convertOut itf array_data array_type w.st k).rc < 0) :
    let r := afb_data_array_convert itf count array_data array_type array_result w
    let obtained := convertedObject itf array_data array_type w.st array_result
    (callsSince w r.2.2).filterMap Call.unrefTarget = (List.range k).reverse.map obtained
      ∧ ((callsSince w r.2.2).filterMap Call.unrefTarget).length = k
      ∧ callsSince w r.2.2 =
          (List.range (k + 1)).map (fun i => Call.data_convert (array_data i) (array_type i)) ++
            ((List.range k).reverse.map obtained).map Call.data_unref
      ∧ (∀ i obj, i < k → (convertOut itf array_data array_type w.st i).result = some obj →
          obtained i = obj)
      ∧ (∀ data, ((List.range k).map obtained).count data =
          ((callsSince w r.2.2).filterMap Call.unrefTarget).count data) := by
  intro r obtained
  have hr := convertLoop_fail_at itf count array_data array_type array_result w k hk hok hfail
  have hcalls : callsSince w r.2.2 =
      (List.range (k + 1)).map (fun i => Call.data_convert (array_data i) (array_type i)) ++
        ((List.range k).reverse.map obtained).map Call.data_unref := by
    apply callsSince_append
    simp only [r, afb_data_array_convert, hr, List.append_assoc, obtained]
  have htargets : (callsSince w r.2.2).filterMap Call.unrefTarget =
      (List.range k).reverse.map obtained := by
    rw [hcalls, List.filterMap_append, filterMap_unrefTarget_convert
        (fun i => Call.data_convert (array_data i) (array_type i)) (fun _ => rfl),
      filterMap_unrefTarget_unref, List.nil_append]
  refine ⟨htargets, by rw [htargets]; simp, hcalls, ?_, ?_⟩
  · intro i obj _ hobj
    simp [obtained, convertedObject, hobj]
  · intro data
    rw [htargets, List.map_reverse, List.count_reverse]

/-- Witness of C3: the third of four conversions fails; the two objects obtained,
`1000` and `1001`, are released in reverse order. -/
theorem afb_data_array_convert_releases_witness :
    (2 < 4)
      ∧ (∀ i, i < 2 →
          0 ≤ (convertOut demoItf (fun i => 10 + i) (fun i => if i = 2 then 0 else 1) 0 i).rc)
      ∧ (convertOut demoItf (fun i => 10 + i) (fun i => if i = 2 then 0 else 1) 0 2).rc < 0
      ∧ (callsSince { st := 0, calls := [] }
          (afb_data_array_convert demoItf 4 (fun i => 10 + i) (fun i => if i = 2 then 0 else 1)
            (fun _ => 7) { st := 0, calls := [] }).2.2).filterMap Call.unrefTarget =
        [1001, 1000] :=
  ⟨by decide, by decide, by decide,
    ((afb_data_array_convert_releases demoItf 4 (fun i => 10 + i)
      (fun i => if i = 2 then 0 else 1) (fun _ => 7) { st := 0, calls := [] } 2
      (by decide) (by decide) (by decide)).1).trans (by decide)⟩

/-! ## C4: `afb_data_array_addref` then `afb_data_array_unref` -/

/-- Trace of `afb_data_array_addref`: one `data_addref` per cell below `count`, in
increasing order. -/
theorem afb_data_array_addref_calls (itf : Itf σ) :
    ∀ (count : Nat) (array : CArray) (w : World σ),
      (afb_data_array_addref itf count array w).calls =
        w.calls ++ (List.range count).map (fun i => Call.data_addref (array i))
  | 0, _, _ => by simp [afb_data_array_addref]
  | count + 1, array, w => by
    rw [afb_data_array_addref, afb_data_array_addref_calls itf count]
    simp [afb_data_addref, World.invoke, List.range_succ_eq_map, Function.comp_def]

/-- Reading of the counts after `afb_data_array_addref`, for a table whose `data_addref`
adds one to the count of its argument: each handle gained its number of occurrences. -/
theorem afb_data_array_addref_refs (itf : Itf σ) (refs : σ → Handle → Nat)
    (hadd : ∀ data s, refs (itf.data_addref data s).2 =
      Function.update (refs s) data (refs s data + 1)) :
    ∀ (count : Nat) (array : CArray) (w : World σ) (h : Handle),
      refs (afb_data_array_addref itf count array w).st h =
        refs w.st h + ((List.range count).map array).count h
  | 0, _, _, _ => by simp [afb_data_array_addref]
  | count + 1, array, w, h => by
    rw [afb_data_array_addref, afb_data_array_addref_refs itf refs hadd count]
    simp only [afb_data_addref, World.invoke, hadd, List.range_succ_eq_map, List.map_cons,
      List.map_map, Function.update_apply, List.count_cons]
    have hmap : (List.range count).map (fun i => array (i + 1)) =
        (List.range count).map (array ∘ Nat.succ) := rfl
    rw [hmap]
    by_cases hh : h = array 0
    · subst hh
      simp
      omega
    · have hh2 : ¬ (array 0 = h) := fun e => hh e.symm
      simp [hh, hh2]

/-- Reading of the counts after `afb_data_array_unref`, for a table whose `data_unref`
takes one off the count of its argument: each handle lost its number of occurrences. -/
theorem afb_data_array_unref_refs (itf : Itf σ) (refs : σ → Handle → Nat)
    (hunref : ∀ data s, refs (itf.data_unref data s) =
      Function.update (refs s) data (refs s data - 1)) :
    ∀ (count : Nat) (array : CArray) (w : World σ) (h : Handle),
      refs (afb_data_array_unref itf count array w).st h =
        refs w.st h - ((List.range count).map array).count h
  | 0, _, _, _ => by simp [afb_data_array_unref]
  | count + 1, array, w, h => by
    rw [afb_data_array_unref, afb_data_array_unref_refs itf refs hunref count]
    simp only [afb_data_unref, World.invoke, hunref, List.range_succ_eq_map, List.map_cons,
      List.map_map, Function.update_apply, List.count_cons]
    have hmap : (List.range count).map (fun i => array (i + 1)) =
        (List.range count).map (array ∘ Nat.succ) := rfl
    rw [hmap]
    by_cases hh : h = array 0
    · subst hh
      simp
      omega
    · have hh2 : ¬ (array 0 = h) := fun e => hh e.symm
      simp [hh, hh2]

/-- C4. For a table with a reading `refs` of the reference count of each handle, whose
`data_addref` adds one to the count of the handle it is given and whose `data_unref`
takes one off it (other counts untouched), `afb_data_array_addref (count, array)`
followed by `afb_data_array_unref (count, array)` leaves the count of every handle as it
was, whatever `count` and `array`, repeated handles included. -/
theorem afb_data_array_addref_unref_net (itf : Itf σ) (refs : σ → Handle → Nat)
    (hadd : ∀ data s, refs (itf.data_addref data s).2 =
      Function.update (refs s) data (refs s data + 1))
    (hunref : ∀ data s, refs (itf.data_unref data s) =
      Function.update (refs s) data (refs s data - 1))
    (count : Nat) (array : CArray) (w : World σ) :
    ∀ h, refs (afb_data_array_unref itf count array
        (afb_data_array_addref itf count array w)).st h = refs w.st h := by
  intro h
  rw [afb_data_array_unref_refs itf refs hunref, afb_data_array_addref_refs itf refs hadd]
  omega

/-- Witness of C4: the counting table, an array holding the handle `5` twice and the
handle `9` once, every count starting at `1`. -/
theorem afb_data_array_addref_unref_net_witness :
    (∀ data s, id (countItf.data_addref data s).2 = Function.update (id s) data (id s data + 1))
      ∧ (∀ data s, id (countItf.data_unref data s) = Function.update (id s) data (id s data - 1))
      ∧ ∀ h, id (afb_data_array_unref countItf 3 (fun i => if i = 2 then 9 else 5)
          (afb_data_array_addref countItf 3 (fun i => if i = 2 then 9 else 5)
            { st := fun _ => 1, calls := [] })).st h = 1 :=
  ⟨fun _ _ => rfl, fun _ _ => rfl,
    afb_data_array_addref_unref_net countItf id (fun _ _ => rfl) (fun _ _ => rfl) 3
      (fun i => if i = 2 then 9 else 5) { st := fun _ => 1, calls := [] }⟩

/-! ## C5: `afb_req_reply` -/

/-- C5, counterexample. With the table that delivers every reply it is given, two calls of
`afb_req_reply` on the request `1` deliver two replies: the second call reaches the
table's `req_reply` like the first, with its own status and payload. -/
theorem afb_req_reply_second_reply_forwarded :
    (afb_req_reply recordItf 1 (-5) 2 (fun i => 20 + i)
        (afb_req_reply recordItf 1 0 1 (fun _ => 10) { st := [], calls := [] })).st =
      [(1, 0, [10]), (1, -5, [20, 21])]
    ∧ (afb_req_reply recordItf 1 (-5) 2 (fun i => 20 + i)
        (afb_req_reply recordItf 1 0 1 (fun _ => 10) { st := [], calls := [] })).calls =
      [Call.req_reply 1 0 1 [10], Call.req_reply 1 (-5) 2 [20, 21]] := by
  decide

/-- C5, as amended. `afb_req_reply` returns nothing and keeps no reply state: every call
invokes the table's `req_reply` exactly once with its request, status, count and replies
unchanged, and so does a second call on the same request; refusing a second reply is
left to the table. -/
theorem afb_req_reply_forwards (itf : Itf σ) (req : Handle) (status : Int) (nreplies : Nat)
    (replies : CArray) (status2 : Int) (nreplies2 : Nat) (replies2 : CArray) (w : World σ) :
    afb_req_reply itf req status nreplies replies w =
        { st := itf.req_reply req status nreplies replies w.st
          calls := w.calls ++
            [Call.req_reply req status nreplies ((List.range nreplies).map replies)] }
      ∧ afb_req_reply itf req status2 nreplies2 replies2
          (afb_req_reply itf req status nreplies replies w) =
        { st := itf.req_reply req status2 nreplies2 replies2
            (itf.req_reply req status nreplies replies w.st)
          calls := w.calls ++
            [Call.req_reply req status nreplies ((List.range nreplies).map replies),
             Call.req_reply req status2 nreplies2 ((List.range nreplies2).map replies2)] } := by
  simp [afb_req_reply, World.invoke]

/-! ## C6 to C8: the data accessors -/

/-- C6, counterexample. With data accessors of the table failing with `-22`, and again
with `-13`, `afb_data_get_constant` returns the status, while `afb_data_size`,
`afb_data_ro_pointer` and `afb_data_rw_pointer` return the same value for both statuses:
the content `5` of their local when the table stores nothing, the `0` stored when it
stores zero.  The status is not in their result. -/
theorem afb_data_size_drops_status :
    (afb_data_get_constant (failItf (-22) none none) 1 none (some 5)
        { st := (), calls := [] }).rc = -22
      ∧ (afb_data_size (failItf (-22) none none) 1 5 { st := (), calls := [] }).1 = 5
      ∧ (afb_data_size (failItf (-13) none none) 1 5 { st := (), calls := [] }).1 = 5
      ∧ (afb_data_size (failItf (-22) (some 0) (some 0)) 1 5 { st := (), calls := [] }).1 = 0
      ∧ (afb_data_size (failItf (-13) (some 0) (some 0)) 1 5 { st := (), calls := [] }).1 = 0
      ∧ (afb_data_ro_pointer (failItf (-22) none none) 1 5 { st := (), calls := [] }).1 = 5
      ∧ (afb_data_ro_pointer (failItf (-13) none none) 1 5 { st := (), calls := [] }).1 = 5
      ∧ (afb_data_rw_pointer (failItf (-22) none none) 1 5 { st := (), calls := [] }).1 = 5
      ∧ (afb_data_rw_pointer (failItf (-13) none none) 1 5 { st := (), calls := [] }).1 = 5 := by
  decide

/-- C6, as amended. The status of the table's `data_get_constant` and `data_get_mutable`
reaches the caller through `afb_data_get_constant` and `afb_data_get_mutable`, which
return it unchanged.  `afb_data_size`, `afb_data_ro_pointer` and `afb_data_rw_pointer`
drop it: they return what the table stored through their one output, or the initial
content of their local when it stored nothing. -/
theorem afb_data_accessors_status (itf : Itf σ) (data : Handle) (pointer : Option Handle)
    (size : Option Nat) (sz : Nat) (ptr : Handle) (w : World σ) :
    (afb_data_get_constant itf data pointer size w).rc =
        (itf.data_get_constant data pointer.isSome size.isSome w.st).1.rc
      ∧ (afb_data_get_mutable itf data pointer size w).rc =
        (itf.data_get_mutable data pointer.isSome size.isSome w.st).1.rc
      ∧ (afb_data_size itf data sz w).1 =
        (itf.data_get_constant data false true w.st).1.size.getD sz
      ∧ (afb_data_ro_pointer itf data ptr w).1 =
        (itf.data_get_constant data true false w.st).1.pointer.getD ptr
      ∧ (afb_data_rw_pointer itf data ptr w).1 =
        (itf.data_get_mutable data true false w.st).1.pointer.getD ptr := by
  refine ⟨rfl, rfl, ?_, ?_, ?_⟩
  · cases h : (itf.data_get_constant data false true w.st).1.size <;>
      simp [afb_data_size, afb_data_get_constant, storeOut, h]
  · cases h : (itf.data_get_constant data true false w.st).1.pointer <;>
      simp [afb_data_ro_pointer, afb_data_get_constant, storeOut, h]
  · cases h : (itf.data_get_mutable data true false w.st).1.pointer <;>
      simp [afb_data_rw_pointer, afb_data_get_mutable, storeOut, h]

/-- C7, counterexample. The object of `bufferItf` is marked constant: `data_get_mutable`
fails with a negative status and stores no pointer.  `afb_data_rw_pointer`, entered with
the address `4096` in its local, returns `4096`: not null, and the very address of the
buffer that `afb_data_ro_pointer` gives. -/
theorem afb_data_rw_pointer_constant_not_null :
    (bufferItf.data_get_mutable 1 true false true).1.rc < 0
      ∧ (bufferItf.data_get_mutable 1 true false true).1.pointer = none
      ∧ (afb_data_rw_pointer bufferItf 1 4096 { st := true, calls := [] }).1 = 4096
      ∧ (afb_data_rw_pointer bufferItf 1 4096 { st := true, calls := [] }).1 ≠ 0
      ∧ (afb_data_rw_pointer bufferItf 1 4096 { st := true, calls := [] }).1 =
        (afb_data_ro_pointer bufferItf 1 0 { st := true, calls := [] }).1 := by
  decide

/-- C7, as amended. When the table's `data_get_mutable` fails with a negative status and
stores null through its pointer output, as for a constant object, neither accessor
yields a usable pointer: `afb_data_get_mutable` returns the negative status with a null
pointer, and `afb_data_rw_pointer` returns null, after the one `data_get_mutable`
invocation.  The null is the one the table stored. -/
theorem afb_data_rw_pointer_null (itf : Itf σ) (data : Handle) (ptr : Handle) (w : World σ)
    (hfail : (itf.data_get_mutable data true false w.st).1.rc < 0)
    (hnull : (itf.data_get_mutable data true false w.st).1.pointer = some 0) :
    (afb_data_get_mutable itf data (some ptr) none w).rc < 0
      ∧ (afb_data_get_mutable itf data (some ptr) none w).pointer = some 0
      ∧ (afb_data_rw_pointer itf data ptr w).1 = 0
      ∧ (afb_data_rw_pointer itf data ptr w).2.calls =
        w.calls ++ [Call.data_get_mutable data true false] := by
  refine ⟨hfail, ?_, ?_, rfl⟩
  · simp [afb_data_get_mutable, storeOut, hnull]
  · simp [afb_data_rw_pointer, afb_data_get_mutable, storeOut, hnull]

/-- Witness of the amended C7: a table failing with `-22` that stores null. -/
theorem afb_data_rw_pointer_null_witness :
    ((failItf (-22) (some 0) none).data_get_mutable 1 true false ()).1.rc < 0
      ∧ ((failItf (-22) (some 0) none).data_get_mutable 1 true false ()).1.pointer = some 0
      ∧ (afb_data_rw_pointer (failItf (-22) (some 0) none) 1 4096
          { st := (), calls := [] }).1 = 0 :=
  ⟨by decide, by decide,
    (afb_data_rw_pointer_null (failItf (-22) (some 0) none) 1 4096 { st := (), calls := [] }
      (by decide) (by decide)).2.2.1⟩

/-- C8. When the table's `data_get_constant` stores the size `n` through the size output
(the pointer output being null) and the pointer `p` through the pointer output (the
size output being null), `afb_data_size` returns `n` and `afb_data_ro_pointer` returns
`p`, each after exactly one `data_get_constant` invocation, with a null pointer output
for the first and a null size output for the second, and no other table invocation. -/
theorem afb_data_size_ro_pointer_agree (itf : Itf σ) (data : Handle) (p : Handle) (n : Nat)
    (sz : Nat) (ptr : Handle) (w : World σ)
    (hsize : (itf.data_get_constant data false true w.st).1.size = some n)
    (hptr : (itf.data_get_constant data true false w.st).1.pointer = some p) :
    (afb_data_size itf data sz w).1 = n
      ∧ (afb_data_size itf data sz w).2.calls =
        w.calls ++ [Call.data_get_constant data false true]
      ∧ (afb_data_ro_pointer itf data ptr w).1 = p
      ∧ (afb_data_ro_pointer itf data ptr w).2.calls =
        w.calls ++ [Call.data_get_constant data true false] := by
  refine ⟨?_, rfl, ?_, rfl⟩
  · simp [afb_data_size, afb_data_get_constant, storeOut, hsize]
  · simp [afb_data_ro_pointer, afb_data_get_constant, storeOut, hptr]

/-- Witness of C8: the object of `bufferItf`, `8` bytes at address `4096`. -/
theorem afb_data_size_ro_pointer_agree_witness :
    (bufferItf.data_get_constant 1 false true false).1.size = some 8
      ∧ (bufferItf.data_get_constant 1 true false false).1.pointer = some 4096
      ∧ (afb_data_size bufferItf 1 77 { st := false, calls := [] }).1 = 8
      ∧ (afb_data_ro_pointer bufferItf 1 77 { st := false, calls := [] }).1 = 4096 :=
  ⟨by decide, by decide,
    (afb_data_size_ro_pointer_agree bufferItf 1 4096 8 77 77 { st := false, calls := [] }
      (by decide) (by decide)).1,
    (afb_data_size_ro_pointer_agree bufferItf 1 4096 8 77 77 { st := false, calls := [] }
      (by decide) (by decide)).2.2.1⟩

/-! ## C9: the log level tests -/

/-- Bitwise and of a natural number with a power of two. -/
theorem nat_land_two_pow (a n : Nat) :
    a &&& 2 ^ n = if a.testBit n then 2 ^ n else 0 := by
  apply Nat.eq_of_testBit_eq
  intro i
  rw [Nat.testBit_and, Nat.testBit_two_pow]
  by_cases h : a.testBit n
  · rw [if_pos h, Nat.testBit_two_pow]
    by_cases hi : n = i
    · subst hi
      simp [h]
    · simp [hi]
  · rw [if_neg h, Nat.zero_testBit]
    by_cases hi : n = i
    · subst hi
      simp [h]
    · simp [hi]

/-- Bits of a power of two that are not in `a`. -/
theorem nat_ldiff_two_pow (a n : Nat) :
    Nat.ldiff (2 ^ n) a = if a.testBit n then 0 else 2 ^ n := by
  apply Nat.eq_of_testBit_eq
  intro i
  rw [Nat.testBit_ldiff, Nat.testBit_two_pow]
  by_cases h : a.testBit n
  · rw [if_pos h, Nat.zero_testBit]
    by_cases hi : n = i
    · subst hi
      simp [h]
    · simp [hi]
  · rw [if_neg h, Nat.testBit_two_pow]
    by_cases hi : n = i
    · subst hi
      simp [h]
    · simp [hi]

/-- Bitwise and of an integer, in two's complement, with a power of two: the power when
the bit of that rank is set, else `0`. -/
theorem int_land_two_pow (m : Int) (n : Nat) :
    Int.land m (2 ^ n) = if m.testBit n then 2 ^ n else 0 := by
  have h2 : (2 : Int) ^ n = ((2 ^ n : Nat) : Int) := by push_cast; rfl
  rw [h2]
  cases m with
  | ofNat a =>
    show ((Nat.land a (2 ^ n) : Nat) : Int) = _
    have := nat_land_two_pow a n
    simp only [HAnd.hAnd, AndOp.and] at this
    rw [this]
    simp only [Int.testBit]
    split <;> simp
  | negSucc a =>
    show ((Nat.ldiff (2 ^ n) a : Nat) : Int) = _
    rw [nat_ldiff_two_pow]
    simp only [Int.testBit]
    by_cases h : a.testBit n <;> simp [h]

/-- The shift `1 << level` is defined for the eight levels and gives `2 ^ level`. -/
theorem shiftLeftOne_eq (level : Int) (h0 : 0 ≤ level) (h7 : level ≤ 7) :
    shiftLeftOne level = some (2 ^ level.toNat) := by
  have hl : level = (level.toNat : Int) := (Int.toNat_of_nonneg h0).symm
  rw [shiftLeftOne, if_pos ⟨h0, by omega⟩]
  congr 1
  conv_lhs => rw [hl]
  rw [Int.one_shiftLeft]
  push_cast
  rfl

/-- C9. For a level from `0` to `7`, `afb_req_wants_log_level (req, level)` is defined
and equals the bitwise and of the mask the table's `req_logmask` returns for `req` with
`2 ^ level`, after that single table invocation; this value is `2 ^ level` when the bit
of rank `level` of the mask is set and `0` otherwise, so it is non-zero exactly when the
bit is set and is not normalised to `1`.  The same holds of `afb_api_wants_log_level`
with the table's `api_logmask`. -/
theorem afb_wants_log_level_masks (itf : Itf σ) (req api : Handle) (level : Int) (w : World σ)
    (h0 : 0 ≤ level) (h7 : level ≤ 7) :
    afb_req_wants_log_level itf req level w =
        some (Int.land (itf.req_logmask req w.st).1 (2 ^ level.toNat),
          { st := (itf.req_logmask req w.st).2
            calls := w.calls ++ [Call.req_logmask req] })
      ∧ Int.land (itf.req_logmask req w.st).1 (2 ^ level.toNat) =
        (if (itf.req_logmask req w.st).1.testBit level.toNat then 2 ^ level.toNat else 0)
      ∧ (Int.land (itf.req_logmask req w.st).1 (2 ^ level.toNat) ≠ 0 ↔
        (itf.req_logmask req w.st).1.testBit level.toNat = true)
      ∧ afb_api_wants_log_level itf api level w =
        some (Int.land (itf.api_logmask api w.st).1 (2 ^ level.toNat),
          { st := (itf.api_logmask api w.st).2
            calls := w.calls ++ [Call.api_logmask api] })
      ∧ Int.land (itf.api_logmask api w.st).1 (2 ^ level.toNat) =
        (if (itf.api_logmask api w.st).1.testBit level.toNat then 2 ^ level.toNat else 0)
      ∧ (Int.land (itf.api_logmask api w.st).1 (2 ^ level.toNat) ≠ 0 ↔
        (itf.api_logmask api w.st).1.testBit level.toNat = true) := by
  have hnz : ∀ m : Int, (Int.land m (2 ^ level.toNat) ≠ 0 ↔ m.testBit level.toNat = true) := by
    intro m
    rw [int_land_two_pow]
    by_cases h : m.testBit level.toNat
    · simp [h]
    · simp [h]
  refine ⟨?_, int_land_two_pow _ _, hnz _, ?_, int_land_two_pow _ _, hnz _⟩
  · simp [afb_req_wants_log_level, afb_req_logmask, shiftLeftOne_eq level h0 h7, World.invoke]
  · simp [afb_api_wants_log_level, afb_api_logmask, shiftLeftOne_eq level h0 h7, World.invoke]

/-- Witness of C9: the mask `88` has the bit of rank `4` set, the result is `16`. -/
theorem afb_wants_log_level_masks_witness :
    ((0 : Int) ≤ 4) ∧ ((4 : Int) ≤ 7)
      ∧ afb_req_wants_log_level maskItf 1 4 { st := (), calls := [] } =
        some (16, { st := (), calls := [Call.req_logmask 1] }) :=
  ⟨by decide, by decide,
    ((afb_wants_log_level_masks maskItf 1 2 4 { st := (), calls := [] }
      (by decide) (by decide)).1).trans rfl⟩

/-! ## C10: converter registration -/

/-- C10. `afb_type_add_convert_to (A, B, c, x)` and `afb_type_add_convert_from (B, A, c, x)`
do the same thing: each invokes the table's `type_add_converter (A, B, c, x)`, source
type first and target type second, exactly once, and returns its status unchanged. -/
theorem afb_type_add_convert_directed (itf : Itf σ) (a b converter closure : Handle)
    (w : World σ) :
    afb_type_add_convert_to itf a b converter closure w =
        afb_type_add_convert_from itf b a converter closure w
      ∧ (afb_type_add_convert_to itf a b converter closure w).1 =
        (itf.type_add_converter a b converter closure w.st).1
      ∧ (afb_type_add_convert_to itf a b converter closure w).2.st =
        (itf.type_add_converter a b converter closure w.st).2
      ∧ (afb_type_add_convert_to itf a b converter closure w).2.calls =
        w.calls ++ [Call.type_add_converter a b converter closure] :=
  ⟨rfl, rfl, rfl, rfl⟩

/-! ## C11: updater registration -/

/-- C11. `afb_type_add_update_to (A, B, u, x)` and `afb_type_add_update_from (B, A, u, x)`
do the same thing: each invokes the table's `type_add_updater (A, B, u, x)`, source type
first and target type second, exactly once, and returns its status unchanged. -/
theorem afb_type_add_update_directed (itf : Itf σ) (a b updater closure : Handle)
    (w : World σ) :
    afb_type_add_update_to itf a b updater closure w =
        afb_type_add_update_from itf b a updater closure w
      ∧ (afb_type_add_update_to itf a b updater closure w).1 =
        (itf.type_add_updater a b updater closure w.st).1
      ∧ (afb_type_add_update_to itf a b updater closure w).2.st =
        (itf.type_add_updater a b updater closure w.st).2
      ∧ (afb_type_add_update_to itf a b updater closure w).2.calls =
        w.calls ++ [Call.type_add_updater a b updater closure] :=
  ⟨rfl, rfl, rfl, rfl⟩

/-! ## C12: `afb_api_call_sync` -/

/-- C12. `afb_api_call_sync` invokes the table's `api_call_sync` exactly once, with its
arguments unchanged and in order, and nothing else (it has no callback to run); it
returns the table's return code and leaves in `status`, `nreplies` and `replies` what
the table stored there.  In particular, when the table stores status `0`, one reply and
the object `obj`, the caller reads status `0`, one reply and `obj` in `replies[0]`. -/
theorem afb_api_call_sync_transparent (itf : Itf σ) (api apiname verbname : Handle)
    (nparams : Nat) (params : CArray) (status : Option Int) (nreplies : Option Nat)
    (replies : Option CArray) (w : World σ) :
    let out := itf.api_call_sync api apiname verbname nparams params status.isSome nreplies
      replies.isSome w.st
    let r := afb_api_call_sync itf api apiname verbname nparams params status nreplies replies w
    callsSince w r.world = [Call.api_call_sync api apiname verbname nparams
        ((List.range nparams).map params) status.isSome nreplies replies.isSome]
      ∧ r.world.st = out.2
      ∧ r.rc = out.1.rc
      ∧ r.status = storeOut status out.1.status
      ∧ r.nreplies = storeOut nreplies out.1.nreplies
      ∧ r.replies = storeArray replies out.1.replies
      ∧ (∀ obj, status.isSome = true → nreplies.isSome = true → replies.isSome = true →
          out.1.status = some 0 → out.1.nreplies = some 1 → out.1.replies = [obj] →
          r.status = some 0 ∧ r.nreplies = some 1 ∧ r.replies.map (fun a => a 0) = some obj) := by
  intro out r
  refine ⟨?_, rfl, rfl, rfl, rfl, rfl, ?_⟩
  · exact callsSince_append w r.world _ rfl
  · intro obj hs hn hr hstatus hnreplies hreplies
    obtain ⟨s0, rfl⟩ := Option.isSome_iff_exists.1 hs
    obtain ⟨n0, rfl⟩ := Option.isSome_iff_exists.1 hn
    obtain ⟨a0, rfl⟩ := Option.isSome_iff_exists.1 hr
    have h1 : r.status = storeOut (some s0) out.1.status := rfl
    have h2 : r.nreplies = storeOut (some n0) out.1.nreplies := rfl
    have h3 : r.replies = storeArray (some a0) out.1.replies := rfl
    rw [h1, h2, h3, hstatus, hnreplies, hreplies]
    simp [storeOut, storeArray]

/-- Witness of C12: a call through `replyItf`, whose verb replies with status `0` and the
object `42`, with room for four replies. -/
theorem afb_api_call_sync_transparent_witness :
    (afb_api_call_sync replyItf 1 2 3 0 (fun _ => 0) (some 99) (some 4) (some (fun _ => 7))
        { st := 0, calls := [] }).status = some 0
      ∧ (afb_api_call_sync replyItf 1 2 3 0 (fun _ => 0) (some 99) (some 4) (some (fun _ => 7))
        { st := 0, calls := [] }).nreplies = some 1
      ∧ (afb_api_call_sync replyItf 1 2 3 0 (fun _ => 0) (some 99) (some 4) (some (fun _ => 7))
        { st := 0, calls := [] }).replies.map (fun a => a 0) = some 42 :=
  (afb_api_call_sync_transparent replyItf 1 2 3 0 (fun _ => 0) (some 99) (some 4)
    (some (fun _ => 7)) { st := 0, calls := [] }).2.2.2.2.2.2 42 rfl rfl rfl rfl rfl rfl

/-! ## C13: jobs -/

/-- C13. `afb_job_post` returns what the table's `job_post` returns for the global root
api followed by its five arguments, unchanged and in order, and `afb_job_abort` what the
table's `job_abort` returns for the root api and the job id; each makes that one table
invocation, and neither takes an api from its caller. -/
theorem afb_job_bound_to_root (itf : Itf σ) (afbBindingV4root : Handle)
    (delayms timeout : Int) (callback argument group : Handle) (jobid : Int) (w : World σ) :
    (afb_job_post itf afbBindingV4root delayms timeout callback argument group w).1 =
        (itf.job_post afbBindingV4root delayms timeout callback argument group w.st).1
      ∧ (afb_job_post itf afbBindingV4root delayms timeout callback argument group w).2.st =
        (itf.job_post afbBindingV4root delayms timeout callback argument group w.st).2
      ∧ callsSince w
          (afb_job_post itf afbBindingV4root delayms timeout callback argument group w).2 =
        [Call.job_post afbBindingV4root delayms timeout callback argument group]
      ∧ (afb_job_abort itf afbBindingV4root jobid w).1 =
        (itf.job_abort afbBindingV4root jobid w.st).1
      ∧ (afb_job_abort itf afbBindingV4root jobid w).2.st =
        (itf.job_abort afbBindingV4root jobid w.st).2
      ∧ callsSince w (afb_job_abort itf afbBindingV4root jobid w).2 =
        [Call.job_abort afbBindingV4root jobid] :=
  ⟨rfl, rfl, callsSince_append _ _ _ rfl, rfl, rfl, callsSince_append _ _ _ rfl⟩

/-! ## C14: the subcall flags -/

/-- C14. The four subcall flags are `1`, `2`, `4` and `8`; the bitwise and of two
distinct flags is `0`; the flags word of every subset lies between `0` and `15`, each
flag is in the word exactly when it is in the subset, and two subsets with the same word
are the same; `afb_req_subcall_sync` hands the flags word to the table's
`req_subcall_sync` unchanged, in that one invocation. -/
theorem afb_req_subcall_flags_independent (itf : Itf σ) (req apiname verbname : Handle)
    (nparams : Nat) (params : CArray) (flags : Int) (status : Option Int)
    (nreplies : Option Nat) (replies : Option CArray) (w : World σ) :
    (afb_req_subcall_catch_events = 1 ∧ afb_req_subcall_pass_events = 2
        ∧ afb_req_subcall_on_behalf = 4 ∧ afb_req_subcall_api_session = 8)
      ∧ (Int.land afb_req_subcall_catch_events afb_req_subcall_pass_events = 0
        ∧ Int.land afb_req_subcall_catch_events afb_req_subcall_on_behalf = 0
        ∧ Int.land afb_req_subcall_catch_events afb_req_subcall_api_session = 0
        ∧ Int.land afb_req_subcall_pass_events afb_req_subcall_on_behalf = 0
        ∧ Int.land afb_req_subcall_pass_events afb_req_subcall_api_session = 0
        ∧ Int.land afb_req_subcall_on_behalf afb_req_subcall_api_session = 0)
      ∧ (∀ c p o a : Bool,
          0 ≤ subcallFlagsWord c p o a ∧ subcallFlagsWord c p o a ≤ 15
          ∧ (Int.land (subcallFlagsWord c p o a) afb_req_subcall_catch_events ≠ 0 ↔ c = true)
          ∧ (Int.land (subcallFlagsWord c p o a) afb_req_subcall_pass_events ≠ 0 ↔ p = true)
          ∧ (Int.land (subcallFlagsWord c p o a) afb_req_subcall_on_behalf ≠ 0 ↔ o = true)
          ∧ (Int.land (subcallFlagsWord c p o a) afb_req_subcall_api_session ≠ 0 ↔ a = true))
      ∧ (∀ c p o a c2 p2 o2 a2 : Bool,
          subcallFlagsWord c p o a = subcallFlagsWord c2 p2 o2 a2 →
          c = c2 ∧ p = p2 ∧ o = o2 ∧ a = a2)
      ∧ callsSince w (afb_req_subcall_sync itf req apiname verbname nparams params flags
          status nreplies replies w).world =
        [Call.req_subcall_sync req apiname verbname nparams ((List.range nparams).map params)
          flags status.isSome nreplies replies.isSome]
      ∧ (afb_req_subcall_sync itf req apiname verbname nparams params flags status nreplies
          replies w).rc =
        (itf.req_subcall_sync req apiname verbname nparams params flags status.isSome nreplies
          replies.isSome w.st).1.rc
      ∧ (afb_req_subcall_sync itf req apiname verbname nparams params flags status nreplies
          replies w).world.st =
        (itf.req_subcall_sync req apiname verbname nparams params flags status.isSome nreplies
          replies.isSome w.st).2 := by
  refine ⟨by decide, by decide, by decide, by decide, callsSince_append _ _ _ rfl, rfl, rfl⟩

/-! ## C15: mutable access and locks -/

/-- C15. `afb_data_get_mutable` and `afb_data_rw_pointer` invoke the table's
`data_get_mutable` exactly once and nothing else, hence none of `data_lock_read`,
`data_try_lock_read`, `data_lock_write`, `data_try_lock_write` and `data_unlock`: the
binder state they leave, lock state included, is the one `data_get_mutable` left. -/
theorem afb_data_get_mutable_takes_no_lock (itf : Itf σ) (data : Handle)
    (pointer : Option Handle) (size : Option Nat) (ptr : Handle) (w : World σ) :
    callsSince w (afb_data_get_mutable itf data pointer size w).world =
        [Call.data_get_mutable data pointer.isSome size.isSome]
      ∧ (afb_data_get_mutable itf data pointer size w).world.st =
        (itf.data_get_mutable data pointer.isSome size.isSome w.st).2
      ∧ (∀ c, c ∈ callsSince w (afb_data_get_mutable itf data pointer size w).world →
          c.isLock = false)
      ∧ callsSince w (afb_data_rw_pointer itf data ptr w).2 =
        [Call.data_get_mutable data true false]
      ∧ (afb_data_rw_pointer itf data ptr w).2.st =
        (itf.data_get_mutable data true false w.st).2
      ∧ (∀ c, c ∈ callsSince w (afb_data_rw_pointer itf data ptr w).2 → c.isLock = false) := by
  have h1 : callsSince w (afb_data_get_mutable itf data pointer size w).world =
      [Call.data_get_mutable data pointer.isSome size.isSome] := callsSince_append _ _ _ rfl
  have h2 : callsSince w (afb_data_rw_pointer itf data ptr w).2 =
      [Call.data_get_mutable data true false] := callsSince_append _ _ _ rfl
  refine ⟨h1, rfl, ?_, h2, rfl, ?_⟩
  · intro c hc
    rw [h1] at hc
    rw [List.mem_singleton.1 hc]
    rfl
  · intro c hc
    rw [h2] at hc
    rw [List.mem_singleton.1 hc]
    rfl

/-! ## C16: the cookie initialiser -/

/-- Runs of the initialiser in a trace made of two parts. -/
theorem initcbRuns_append (l1 l2 : List Call) :
    initcbRuns (l1 ++ l2) = initcbRuns l1 + initcbRuns l2 := by
  simp [initcbRuns, List.filter_append]

/-- Runs of the initialiser in the items one `afb_req_context` call adds to the trace. -/
theorem initcbRuns_getinit (req : Handle) (value : Bool) (initcb closure : Handle) (n : Nat) :
    initcbRuns (Call.req_cookie_getinit req value initcb closure ::
      List.replicate n (Call.run_initcb initcb closure)) = n := by
  have h : ∀ m, (List.replicate m (Call.run_initcb initcb closure)).filter Call.isInitcbRun =
      List.replicate m (Call.run_initcb initcb closure) := by
    intro m
    apply List.filter_eq_self.2
    intro c hc
    rw [List.eq_of_mem_replicate hc]
    rfl
  simp [initcbRuns, List.filter_cons, Call.isInitcbRun, h]

/-- The trace only grows along a sequence of `afb_req_context` calls. -/
theorem contextCalls_calls (itf : Itf σ) (req : Handle) :
    ∀ (args : List (Option Handle × Handle × Handle)) (w : World σ),
      (contextCalls itf req args w).calls =
        w.calls ++ callsSince w (contextCalls itf req args w)
  | [], w => by simp [contextCalls, callsSince]
  | a :: args, w => by
    rw [contextCalls]
    have ih := contextCalls_calls itf req args (afb_req_context itf req a.1 a.2.1 a.2.2 w).2.2
    have h1 : (afb_req_context itf req a.1 a.2.1 a.2.2 w).2.2.calls =
        w.calls ++ Call.req_cookie_getinit req a.1.isSome a.2.1 a.2.2 ::
          List.replicate (itf.req_cookie_getinit req a.1.isSome a.2.1 a.2.2 w.st).1.initcb_runs
            (Call.run_initcb a.2.1 a.2.2) := rfl
    rw [h1] at ih
    rw [callsSince, ih]
    simp

/-- C16, counterexample. With the binder that runs the initialiser at every
`req_cookie_getinit`, two calls of `afb_req_context` on the request `1` run `initcb`
twice. -/
theorem afb_req_context_initcb_twice :
    callsSince { st := 0, calls := [] }
        (contextCalls eagerCookieItf 1 [(some 0, 70, 71), (some 0, 70, 71)]
          { st := 0, calls := [] }) =
      [Call.req_cookie_getinit 1 true 70 71, Call.run_initcb 70 71,
       Call.req_cookie_getinit 1 true 70 71, Call.run_initcb 70 71]
    ∧ initcbRuns (callsSince { st := 0, calls := [] }
        (contextCalls eagerCookieItf 1 [(some 0, 70, 71), (some 0, 70, 71)]
          { st := 0, calls := [] })) = 2 := by
  decide

/-- The items added to the trace by a sequence of `afb_req_context` calls: those of the
first call, then those of the others. -/
theorem callsSince_contextCalls_cons (itf : Itf σ) (req : Handle)
    (a : Option Handle × Handle × Handle) (args : List (Option Handle × Handle × Handle))
    (w : World σ) :
    callsSince w (contextCalls itf req (a :: args) w) =
      (Call.req_cookie_getinit req a.1.isSome a.2.1 a.2.2 ::
        List.replicate (itf.req_cookie_getinit req a.1.isSome a.2.1 a.2.2 w.st).1.initcb_runs
          (Call.run_initcb a.2.1 a.2.2)) ++
      callsSince (afb_req_context itf req a.1 a.2.1 a.2.2 w).2.2
        (contextCalls itf req args (afb_req_context itf req a.1 a.2.1 a.2.2 w).2.2) := by
  have h1 : (afb_req_context itf req a.1 a.2.1 a.2.2 w).2.2.calls =
      w.calls ++ Call.req_cookie_getinit req a.1.isSome a.2.1 a.2.2 ::
        List.replicate (itf.req_cookie_getinit req a.1.isSome a.2.1 a.2.2 w.st).1.initcb_runs
          (Call.run_initcb a.2.1 a.2.2) := rfl
  apply callsSince_append
  rw [contextCalls, contextCalls_calls itf req args, h1, List.append_assoc]

/-- For a binder that runs the initialiser only for a request without cookie, and leaves
a cookie when it ran it, a sequence of `afb_req_context` calls runs it at most once, and
not at all when the request has a cookie. -/
theorem contextCalls_runs (itf : Itf σ) (req : Handle) (cookie : σ → Bool)
    (hkept : ∀ s value cb clo, cookie s = true →
      (itf.req_cookie_getinit req value cb clo s).1.initcb_runs = 0
        ∧ cookie (itf.req_cookie_getinit req value cb clo s).2 = true)
    (hfresh : ∀ s value cb clo, cookie s = false →
      (itf.req_cookie_getinit req value cb clo s).1.initcb_runs ≤ 1
        ∧ ((itf.req_cookie_getinit req value cb clo s).1.initcb_runs = 1 →
          cookie (itf.req_cookie_getinit req value cb clo s).2 = true)) :
    ∀ (args : List (Option Handle × Handle × Handle)) (w : World σ),
      (cookie w.st = true → initcbRuns (callsSince w (contextCalls itf req args w)) = 0)
        ∧ initcbRuns (callsSince w (contextCalls itf req args w)) ≤ 1
  | [], w => by simp [contextCalls, callsSince, initcbRuns]
  | a :: args, w => by
    have ih := contextCalls_runs itf req cookie hkept hfresh args
      (afb_req_context itf req a.1 a.2.1 a.2.2 w).2.2
    have hst : (afb_req_context itf req a.1 a.2.1 a.2.2 w).2.2.st =
        (itf.req_cookie_getinit req a.1.isSome a.2.1 a.2.2 w.st).2 := rfl
    rw [hst] at ih
    rw [callsSince_contextCalls_cons, initcbRuns_append, initcbRuns_getinit]
    by_cases hc : cookie w.st = true
    · have hk := hkept w.st a.1.isSome a.2.1 a.2.2 hc
      have h0 := ih.1 hk.2
      constructor
      · intro _
        omega
      · omega
    · have hf := hfresh w.st a.1.isSome a.2.1 a.2.2 (by simpa using hc)
      constructor
      · intro h
        exact absurd h hc
      · by_cases h1 : (itf.req_cookie_getinit req a.1.isSome a.2.1 a.2.2 w.st).1.initcb_runs = 1
        · have h0 := ih.1 (hf.2 h1)
          omega
        · have := ih.2
          omega

/-- C16, as amended. `afb_req_context` makes exactly one invocation of the table's
`req_cookie_getinit`, with its request, output, initialiser and closure unchanged, and
returns its status and cookie; the only runs of `initcb` are those the binder makes
during that invocation.  So over a sequence of `afb_req_context` calls on one request
`initcb` is run at most once when the binder runs it only for a request without cookie
and leaves the request with a cookie once it ran it. -/
theorem afb_req_context_forwards (itf : Itf σ) (req : Handle) (ptrval : Option Handle)
    (initcb closure : Handle) (w : World σ) :
    (afb_req_context itf req ptrval initcb closure w).1 =
        (itf.req_cookie_getinit req ptrval.isSome initcb closure w.st).1.rc
      ∧ (afb_req_context itf req ptrval initcb closure w).2.1 =
        storeOut ptrval (itf.req_cookie_getinit req ptrval.isSome initcb closure w.st).1.value
      ∧ (afb_req_context itf req ptrval initcb closure w).2.2.st =
        (itf.req_cookie_getinit req ptrval.isSome initcb closure w.st).2
      ∧ callsSince w (afb_req_context itf req ptrval initcb closure w).2.2 =
        Call.req_cookie_getinit req ptrval.isSome initcb closure ::
          List.replicate
            (itf.req_cookie_getinit req ptrval.isSome initcb closure w.st).1.initcb_runs
            (Call.run_initcb initcb closure)
      ∧ (∀ (cookie : σ → Bool) (args : List (Option Handle × Handle × Handle)),
          (∀ s value cb clo, cookie s = true →
            (itf.req_cookie_getinit req value cb clo s).1.initcb_runs = 0
              ∧ cookie (itf.req_cookie_getinit req value cb clo s).2 = true) →
          (∀ s value cb clo, cookie s = false →
            (itf.req_cookie_getinit req value cb clo s).1.initcb_runs ≤ 1
              ∧ ((itf.req_cookie_getinit req value cb clo s).1.initcb_runs = 1 →
                cookie (itf.req_cookie_getinit req value cb clo s).2 = true)) →
          initcbRuns (callsSince w (contextCalls itf req args w)) ≤ 1) :=
  ⟨rfl, rfl, rfl, callsSince_append _ _ _ rfl,
    fun cookie args hkept hfresh => (contextCalls_runs itf req cookie hkept hfresh args w).2⟩

/-- Witness of the amended C16: the binder `cookieItf`, three calls on the request `1`
that starts without cookie. -/
theorem afb_req_context_forwards_witness :
    initcbRuns (callsSince { st := fun _ => none, calls := [] }
      (contextCalls cookieItf 1 [(some 0, 70, 71), (none, 70, 71), (some 0, 72, 73)]
        { st := fun _ => none, calls := [] })) ≤ 1 :=
  (afb_req_context_forwards cookieItf 1 none 0 0 { st := fun _ => none, calls := [] }).2.2.2.2
    (fun s => (s 1).isSome) [(some 0, 70, 71), (none, 70, 71), (some 0, 72, 73)]
    (by
      intro s value cb clo h
      obtain ⟨v, hv⟩ := Option.isSome_iff_exists.1 h
      simp [cookieItf, idleItf, hv])
    (by
      intro s value cb clo h
      have hv : s 1 = none := by simpa using h
      simp [cookieItf, idleItf, hv])

/-! ## C17: termination of `afb_data_array_convert` -/

/-- The loop of `afb_data_array_convert` is its body repeated while its test holds. -/
theorem convertLoop_unfold (itf : Itf σ) (count : Nat) (array_data array_type : CArray)
    (s : ConvertState σ) :
    convertLoop itf count array_data array_type s =
      if convertTest count s = true then
        convertLoop itf count array_data array_type
          (convertBody itf count array_data array_type s)
      else s := by
  by_cases h : 0 ≤ s.rc ∧ s.index < count
  · have ht : convertTest count s = true := by simp [convertTest, h.1, h.2]
    rw [if_pos ht, convertLoop, dif_pos h]
    by_cases hrc : 0 ≤ (afb_data_convert itf (array_data s.index) (array_type s.index)
        (s.array_result s.index) s.world).1
    · simp only [dif_pos hrc, convertBody, if_pos hrc]
    · simp only [dif_neg hrc, convertBody, if_neg hrc]
  · have ht : ¬ convertTest count s = true := by
      simp only [convertTest, Bool.and_eq_true, decide_eq_true_eq]
      exact h
    rw [if_neg ht, convertLoop_exit _ _ _ _ _ h]

/-- The status after one turn of the loop is that of the conversion made. -/
theorem convertBody_rc (itf : Itf σ) (count : Nat) (array_data array_type : CArray)
    (s : ConvertState σ) :
    (convertBody itf count array_data array_type s).rc =
      (itf.data_convert (array_data s.index) (array_type s.index) s.world.st).1.rc := by
  simp only [convertBody]
  split <;> rfl

/-- A turn of the loop whose conversion succeeds leads from `convertUpto m` to
`convertUpto (m + 1)`. -/
theorem convertBody_upto (itf : Itf σ) (count : Nat) (array_data array_type : CArray)
    (array_result : CArray) (w : World σ) (m : Nat)
    (hok : 0 ≤ (convertOut itf array_data array_type w.st m).rc) :
    convertBody itf count array_data array_type
        (convertUpto itf array_data array_type array_result w m) =
      convertUpto itf array_data array_type array_result w (m + 1) := by
  have hrc : 0 ≤ (afb_data_convert itf
      (array_data (convertUpto itf array_data array_type array_result w m).index)
      (array_type (convertUpto itf array_data array_type array_result w m).index)
      ((convertUpto itf array_data array_type array_result w m).array_result
        (convertUpto itf array_data array_type array_result w m).index)
      (convertUpto itf array_data array_type array_result w m).world).1 := hok
  simp only [convertBody, if_pos hrc]
  simp only [convertUpto, afb_data_convert, World.invoke, convertState, convertOut]
  congr 1
  · funext i
    simp only [convertedArray, convertedObject, Function.update_apply, convertOut]
    by_cases hi : i = m
    · subst hi
      simp
    · simp only [hi, if_false]
      by_cases h2 : i < m
      · rw [if_pos h2, if_pos (by omega)]
      · rw [if_neg h2, if_neg (by omega)]
  · simp [List.range_succ]

/-- The loop starts in the state `convertUpto 0`. -/
theorem convertUpto_zero (itf : Itf σ) (array_data array_type : CArray)
    (array_result : CArray) (w : World σ) :
    convertUpto itf array_data array_type array_result w 0 =
      { rc := 0, index := 0, array_result := array_result, world := w } := by
  have h0 : convertedArray itf array_data array_type w.st array_result 0 = array_result := by
    funext i
    simp [convertedArray]
  simp [convertUpto, h0, convertState]

/-- After `m` turns whose conversions succeed the loop is in the state `convertUpto m`. -/
theorem iterate_convertBody_upto (itf : Itf σ) (count : Nat) (array_data array_type : CArray)
    (array_result : CArray) (w : World σ) :
    ∀ m, (∀ i, i < m → 0 ≤ (convertOut itf array_data array_type w.st i).rc) →
      (convertBody itf count array_data array_type)^[m]
          { rc := 0, index := 0, array_result := array_result, world := w } =
        convertUpto itf array_data array_type array_result w m
  | 0, _ => by
    rw [Function.iterate_zero, id, convertUpto_zero]
  | m + 1, hok => by
    rw [Function.iterate_succ_apply',
      iterate_convertBody_upto itf count array_data array_type array_result w m
        (fun i hi => hok i (by omega)),
      convertBody_upto itf count array_data array_type array_result w m (hok m (by omega))]

/-- The loop test holds in `convertUpto m` when the conversions below `m` succeeded and
`m` is below `count`. -/
theorem convertTest_upto (itf : Itf σ) (count : Nat) (array_data array_type : CArray)
    (array_result : CArray) (w : World σ) (m : Nat) (hm : m < count)
    (hok : ∀ i, i < m → 0 ≤ (convertOut itf array_data array_type w.st i).rc) :
    convertTest count (convertUpto itf array_data array_type array_result w m) = true := by
  have hrc0 : 0 ≤ (convertUpto itf array_data array_type array_result w m).rc := by
    cases m with
    | zero => simp [convertUpto]
    | succ n => exact hok n (by omega)
  have hidx : (convertUpto itf array_data array_type array_result w m).index < count := hm
  simp [convertTest, hrc0, hidx]

/-- The conversions among a run of `data_convert` invocations. -/
theorem filterMap_convertArgs_convert (array_data array_type : CArray) (l : List Nat) :
    (l.map (fun i => Call.data_convert (array_data i) (array_type i))).filterMap
      Call.convertArgs = l.map (fun i => (array_data i, array_type i)) := by
  induction l with
  | nil => rfl
  | cons a l ih => simp [List.filterMap_cons, Call.convertArgs, ih]

/-- There is no conversion among a run of `data_unref` invocations. -/
theorem filterMap_convertArgs_unref (l : List Handle) :
    (l.map Call.data_unref).filterMap Call.convertArgs = [] := by
  induction l with
  | nil => rfl
  | cons a l ih => simp [List.filterMap_cons, Call.convertArgs, ih]

/-- C17. `afb_data_array_convert` terminates, whatever the table does: its loop is left
after `n` turns for some `n ≤ count`.  Turn number `m` starts with `index = m`, so the
index grows by one per turn; the test fails after the last turn, where `index` is
`count`; each turn makes one `data_convert` invocation, `n` in all.  The first inner loop
ends with `index = 0` and the second, entered with `index ≤ count`, with
`index = count`. -/
theorem afb_data_array_convert_terminates (itf : Itf σ) (count : Nat)
    (array_data array_type array_result : CArray) (w : World σ) :
    (∃ n, n ≤ count
      ∧ (∀ m, m < n →
          convertTest count ((convertBody itf count array_data array_type)^[m]
            { rc := 0, index := 0, array_result := array_result, world := w }) = true
          ∧ ((convertBody itf count array_data array_type)^[m]
            { rc := 0, index := 0, array_result := array_result, world := w }).index = m)
      ∧ convertTest count ((convertBody itf count array_data array_type)^[n]
          { rc := 0, index := 0, array_result := array_result, world := w }) = false
      ∧ ((convertBody itf count array_data array_type)^[n]
          { rc := 0, index := 0, array_result := array_result, world := w }).index = count
      ∧ convertLoop itf count array_data array_type
          { rc := 0, index := 0, array_result := array_result, world := w } =
        (convertBody itf count array_data array_type)^[n]
          { rc := 0, index := 0, array_result := array_result, world := w }
      ∧ ((callsSince w (afb_data_array_convert itf count array_data array_type array_result
          w).2.2).filterMap Call.convertArgs).length = n)
    ∧ (∀ index array w2, (unrefLoop itf index array w2).1 = 0)
    ∧ (∀ index array, index ≤ count → (clearLoop count index array).1 = count) := by
  refine ⟨?_, ?_, ?_⟩
  · by_cases hall : ∀ i, i < count → 0 ≤ (convertOut itf array_data array_type w.st i).rc
    · refine ⟨count, le_refl _, ?_, ?_, ?_, ?_, ?_⟩
      · intro m hm
        rw [iterate_convertBody_upto itf count array_data array_type array_result w m
          (fun i hi => hall i (by omega))]
        exact ⟨convertTest_upto itf count array_data array_type array_result w m hm
          (fun i hi => hall i (by omega)), rfl⟩
      · rw [iterate_convertBody_upto itf count array_data array_type array_result w count hall]
        simp [convertTest, convertUpto]
      · rw [iterate_convertBody_upto itf count array_data array_type array_result w count hall]
        rfl
      · rw [iterate_convertBody_upto itf count array_data array_type array_result w count hall,
          convertLoop_all itf count array_data array_type array_result w hall]
      · have hc : (afb_data_array_convert itf count array_data array_type array_result
            w).2.2.calls = w.calls ++ (List.range count).map
              (fun i => Call.data_convert (array_data i) (array_type i)) := by
          simp only [afb_data_array_convert,
            convertLoop_all itf count array_data array_type array_result w hall, convertUpto]
        rw [callsSince_append w _ _ hc, filterMap_convertArgs_convert]
        simp
    · have hex : ∃ i, i < count ∧ (convertOut itf array_data array_type w.st i).rc < 0 := by
        by_contra hne
        apply hall
        intro i hi
        by_contra hneg
        exact hne ⟨i, hi, by omega⟩
      classical
      have hk := Nat.find_spec hex
      have hmin : ∀ i, i < Nat.find hex →
          0 ≤ (convertOut itf array_data array_type w.st i).rc := by
        intro i hi
        by_contra hneg
        exact Nat.find_min hex hi ⟨by omega, by omega⟩
      generalize Nat.find hex = k at hk hmin
      have hfinal := convertLoop_fail_at itf count array_data array_type array_result w k
        hk.1 hmin hk.2
      have hiter : (convertBody itf count array_data array_type)^[k + 1]
          { rc := 0, index := 0, array_result := array_result, world := w } =
          convertBody itf count array_data array_type
            (convertUpto itf array_data array_type array_result w k) := by
        rw [Function.iterate_succ_apply',
          iterate_convertBody_upto itf count array_data array_type array_result w k hmin]
      have hrcneg : (convertBody itf count array_data array_type
          (convertUpto itf array_data array_type array_result w k)).rc < 0 := by
        rw [convertBody_rc]
        exact hk.2
      have htest : convertTest count (convertBody itf count array_data array_type
          (convertUpto itf array_data array_type array_result w k)) = false := by
        simp [convertTest, hrcneg]
      have hloop : convertLoop itf count array_data array_type
          { rc := 0, index := 0, array_result := array_result, world := w } =
          convertBody itf count array_data array_type
            (convertUpto itf array_data array_type array_result w k) := by
        rw [convertLoop_upto itf count array_data array_type array_result w k (by omega) hmin,
          convertLoop_unfold,
          if_pos (convertTest_upto itf count array_data array_type array_result w k hk.1 hmin),
          convertLoop_unfold, htest]
        simp
      refine ⟨k + 1, by omega, ?_, ?_, ?_, ?_, ?_⟩
      · intro m hm
        rw [iterate_convertBody_upto itf count array_data array_type array_result w m
          (fun i hi => hmin i (by omega))]
        exact ⟨convertTest_upto itf count array_data array_type array_result w m (by omega)
          (fun i hi => hmin i (by omega)), rfl⟩
      · rw [hiter, htest]
      · rw [hiter, ← hloop, hfinal]
      · rw [hiter, hloop]
      · have hc : (afb_data_array_convert itf count array_data array_type array_result
            w).2.2.calls = w.calls ++
              ((List.range (k + 1)).map
                (fun i => Call.data_convert (array_data i) (array_type i)) ++
              ((List.range k).reverse.map
                (convertedObject itf array_data array_type w.st array_result)).map
                Call.data_unref) := by
          simp only [afb_data_array_convert, hfinal, List.append_assoc]
        rw [callsSince_append w _ _ hc, List.filterMap_append, filterMap_convertArgs_convert,
          filterMap_convertArgs_unref]
        simp
  · intro index array w2
    rw [unrefLoop_eq]
  · intro index array hi
    rw [clearLoop_eq count (count - index) index array (by omega)]

/-! ## C18: `afb_data_assign` -/

/-- C18. `afb_data_assign (&slot, value)` invokes `data_unref` exactly once, on the
previous content of the slot, whatever it is (null and `value` itself included), and
nothing else, so never `data_addref`; afterwards the slot holds `value`.  Assigning a
slot to itself therefore leaves the slot as it is and, for a table whose `data_unref`
takes one off the count of its argument, takes one reference off the object the slot
still designates. -/
theorem afb_data_assign_transfers (itf : Itf σ) (slot value : Handle) (w : World σ) :
    (afb_data_assign itf slot value w).1 = value
      ∧ callsSince w (afb_data_assign itf slot value w).2 = [Call.data_unref slot]
      ∧ (afb_data_assign itf slot value w).2.st = itf.data_unref slot w.st
      ∧ (∀ data, Call.data_addref data ∉ callsSince w (afb_data_assign itf slot value w).2)
      ∧ (afb_data_assign itf slot slot w).1 = slot
      ∧ callsSince w (afb_data_assign itf slot slot w).2 = [Call.data_unref slot]
      ∧ (∀ refs : σ → Handle → Nat,
          (∀ data s, refs (itf.data_unref data s) =
            Function.update (refs s) data (refs s data - 1)) →
          refs (afb_data_assign itf slot slot w).2.st =
            Function.update (refs w.st) slot (refs w.st slot - 1)) := by
  have h1 : ∀ v, callsSince w (afb_data_assign itf slot v w).2 = [Call.data_unref slot] :=
    fun v => callsSince_append _ _ _ rfl
  refine ⟨rfl, h1 value, rfl, ?_, rfl, h1 slot, ?_⟩
  · intro data
    rw [h1 value]
    simp
  · intro refs hunref
    exact hunref slot w.st

/-- Witness of C18: with the counting table and two references on the object `5`, a
slot holding `5` assigned to itself still holds `5`, and one reference is left. -/
theorem afb_data_assign_transfers_witness :
    (afb_data_assign countItf 5 5 { st := fun _ => 2, calls := [] }).1 = 5
      ∧ (afb_data_assign countItf 5 5 { st := fun _ => 2, calls := [] }).2.st 5 = 1 :=
  ⟨(afb_data_assign_transfers countItf 5 5 { st := fun _ => 2, calls := [] }).2.2.2.2.1,
    (congrFun ((afb_data_assign_transfers countItf 5 5
      { st := fun _ => 2, calls := [] }).2.2.2.2.2.2 id (fun _ _ => rfl)) 5).trans
      (by decide)⟩

/-! ## C19: `afb_data_array_addref` and `afb_data_array_unref` -/

/-- Trace of `afb_data_array_unref`: one `data_unref` per cell below `count`, in
increasing order. -/
theorem afb_data_array_unref_calls (itf : Itf σ) :
    ∀ (count : Nat) (array : CArray) (w : World σ),
      (afb_data_array_unref itf count array w).calls =
        w.calls ++ (List.range count).map (fun i => Call.data_unref (array i))
  | 0, _, _ => by simp [afb_data_array_unref]
  | count + 1, array, w => by
    rw [afb_data_array_unref, afb_data_array_unref_calls itf count]
    simp [afb_data_unref, World.invoke, List.range_succ_eq_map, Function.comp_def]

/-- The effect of `afb_data_array_addref` depends on the cells below `count` only. -/
theorem afb_data_array_addref_congr (itf : Itf σ) :
    ∀ (count : Nat) (array array2 : CArray) (w : World σ),
      (∀ i, i < count → array2 i = array i) →
      afb_data_array_addref itf count array2 w = afb_data_array_addref itf count array w
  | 0, _, _, _, _ => rfl
  | count + 1, array, array2, w, h => by
    rw [afb_data_array_addref, afb_data_array_addref, h 0 (by omega)]
    exact afb_data_array_addref_congr itf count _ _ _ (fun i hi => h (i + 1) (by omega))

/-- The effect of `afb_data_array_unref` depends on the cells below `count` only. -/
theorem afb_data_array_unref_congr (itf : Itf σ) :
    ∀ (count : Nat) (array array2 : CArray) (w : World σ),
      (∀ i, i < count → array2 i = array i) →
      afb_data_array_unref itf count array2 w = afb_data_array_unref itf count array w
  | 0, _, _, _, _ => rfl
  | count + 1, array, array2, w, h => by
    rw [afb_data_array_unref, afb_data_array_unref, h 0 (by omega)]
    exact afb_data_array_unref_congr itf count _ _ _ (fun i hi => h (i + 1) (by omega))

/-- C19. `afb_data_array_addref (count, array)` invokes `data_addref` exactly `count`
times, on `array[0]`, ..., `array[count-1]` in that order, and nothing else;
`afb_data_array_unref (count, array)` does the same with `data_unref`.  With `count`
equal to `0` the world is left as it is.  Neither depends on a cell of index `count` or
more: two arrays that agree below `count` give the same outcome, so with `count` equal
to `0` the array is not read at all. -/
theorem afb_data_array_addref_unref_order (itf : Itf σ) (count : Nat) (array : CArray)
    (w : World σ) :
    callsSince w (afb_data_array_addref itf count array w) =
        (List.range count).map (fun i => Call.data_addref (array i))
      ∧ (callsSince w (afb_data_array_addref itf count array w)).length = count
      ∧ callsSince w (afb_data_array_unref itf count array w) =
        (List.range count).map (fun i => Call.data_unref (array i))
      ∧ (callsSince w (afb_data_array_unref itf count array w)).length = count
      ∧ afb_data_array_addref itf 0 array w = w
      ∧ afb_data_array_unref itf 0 array w = w
      ∧ (∀ array2 : CArray, (∀ i, i < count → array2 i = array i) →
          afb_data_array_addref itf count array2 w = afb_data_array_addref itf count array w
          ∧ afb_data_array_unref itf count array2 w = afb_data_array_unref itf count array w)
      ∧ (∀ array2 : CArray,
          afb_data_array_addref itf 0 array2 w = afb_data_array_addref itf 0 array w
          ∧ afb_data_array_unref itf 0 array2 w = afb_data_array_unref itf 0 array w) := by
  have h1 := callsSince_append w _ _ (afb_data_array_addref_calls itf count array w)
  have h2 := callsSince_append w _ _ (afb_data_array_unref_calls itf count array w)
  refine ⟨h1, by rw [h1]; simp, h2, by rw [h2]; simp, rfl, rfl, ?_, fun _ => ⟨rfl, rfl⟩⟩
  intro array2 h
  exact ⟨afb_data_array_addref_congr itf count array array2 w h,
    afb_data_array_unref_congr itf count array array2 w h⟩

/-- Witness of C19: the counting table and an array that holds `5`, `5`, `9` and then
other cells, of which two calls with `count = 3` take no notice. -/
theorem afb_data_array_addref_unref_order_witness :
    callsSince { st := fun _ => 1, calls := [] }
        (afb_data_array_addref countItf 3 (fun i => if i = 2 then 9 else 5)
          { st := fun _ => 1, calls := [] }) =
      [Call.data_addref 5, Call.data_addref 5, Call.data_addref 9]
    ∧ afb_data_array_unref countItf 3 (fun i => if i < 2 then 5 else if i = 2 then 9 else 77)
        { st := fun _ => 1, calls := [] } =
      afb_data_array_unref countItf 3 (fun i => if i = 2 then 9 else 5)
        { st := fun _ => 1, calls := [] } :=
  ⟨(afb_data_array_addref_unref_order countItf 3 (fun i => if i = 2 then 9 else 5)
      { st := fun _ => 1, calls := [] }).1,
    ((afb_data_array_addref_unref_order countItf 3 (fun i => if i = 2 then 9 else 5)
      { st := fun _ => 1, calls := [] }).2.2.2.2.2.2.1
      (fun i => if i < 2 then 5 else if i = 2 then 9 else 77) (by decide)).2⟩

/-! ## C20: validity of handles -/

/-- C20. `afb_data_is_valid`, `afb_req_is_valid` and `afb_event_is_valid` return `1` for
a non-null handle and `0` for the null handle, and invoke no table entry: the world is
left as it is.  The answer does not depend on the world, so a non-null handle is
reported valid whatever became of its object; with the counting table, the object `5`
is still reported valid once its last reference is released. -/
theorem afb_is_valid_null_test (itf : Itf σ) (handle : Handle) (w w2 : World σ) :
    afb_data_is_valid handle w = (if handle = 0 then 0 else 1, w)
      ∧ afb_req_is_valid handle w = (if handle = 0 then 0 else 1, w)
      ∧ afb_event_is_valid handle w = (if handle = 0 then 0 else 1, w)
      ∧ (afb_data_is_valid handle w2).1 = (afb_data_is_valid handle w).1
      ∧ (afb_req_is_valid handle w2).1 = (afb_req_is_valid handle w).1
      ∧ (afb_event_is_valid handle w2).1 = (afb_event_is_valid handle w).1
      ∧ (afb_data_is_valid handle (afb_data_unref itf handle w)).1 =
        (if handle = 0 then 0 else 1)
      ∧ ((afb_data_unref countItf 5 { st := fun _ => 1, calls := [] }).st 5 = 0
        ∧ (afb_data_is_valid 5
            (afb_data_unref countItf 5 { st := fun _ => 1, calls := [] })).1 = 1) := by
  have hd : ∀ v : World σ, afb_data_is_valid handle v = (if handle = 0 then 0 else 1, v) := by
    intro v
    by_cases h : handle = 0 <;> simp [afb_data_is_valid, h]
  have hr : ∀ v : World σ, afb_req_is_valid handle v = (if handle = 0 then 0 else 1, v) := by
    intro v
    by_cases h : handle = 0 <;> simp [afb_req_is_valid, logicalNot, h]
  have he : ∀ v : World σ, afb_event_is_valid handle v = (if handle = 0 then 0 else 1, v) := by
    intro v
    by_cases h : handle = 0 <;> simp [afb_event_is_valid, logicalNot, h]
  refine ⟨hd w, hr w, he w, by rw [hd, hd], by rw [hr, hr], by rw [he, he], by rw [hd], ?_⟩
  decide

/-! ## C21: the log mask of the root api -/

/-- C21. `afb_get_logmask ()` is `afb_api_logmask (afbBindingV4root)`: it returns the mask
the table's `api_logmask` gives for the global root api, after that one table
invocation.  Hence, from the same world and for a level from `0` to `7`,
`afb_api_wants_log_level (afbBindingV4root, level)` is the bitwise and of the value of
`afb_get_logmask ()` with `2 ^ level`, and leaves the world `afb_get_logmask ()`
leaves. -/
theorem afb_get_logmask_root (itf : Itf σ) (afbBindingV4root : Handle) (w : World σ) :
    afb_get_logmask itf afbBindingV4root w = afb_api_logmask itf afbBindingV4root w
      ∧ (afb_get_logmask itf afbBindingV4root w).1 =
        (itf.api_logmask afbBindingV4root w.st).1
      ∧ (afb_get_logmask itf afbBindingV4root w).2.st =
        (itf.api_logmask afbBindingV4root w.st).2
      ∧ callsSince w (afb_get_logmask itf afbBindingV4root w).2 =
        [Call.api_logmask afbBindingV4root]
      ∧ (∀ level : Int, 0 ≤ level → level ≤ 7 →
          afb_api_wants_log_level itf afbBindingV4root level w =
            some (Int.land (afb_get_logmask itf afbBindingV4root w).1 (2 ^ level.toNat),
              (afb_get_logmask itf afbBindingV4root w).2)) := by
  refine ⟨rfl, rfl, rfl, callsSince_append _ _ _ rfl, ?_⟩
  intro level h0 h7
  simp [afb_api_wants_log_level, afb_get_logmask, shiftLeftOne_eq level h0 h7]

/-- Witness of C21: the table whose masks are `88`, the root api `1`, level `6`: the bit
of rank `6` is set in `88` and the test gives `64`. -/
theorem afb_get_logmask_root_witness :
    ((0 : Int) ≤ 6) ∧ ((6 : Int) ≤ 7)
      ∧ (afb_get_logmask maskItf 1 { st := (), calls := [] }).1 = 88
      ∧ afb_api_wants_log_level maskItf 1 6 { st := (), calls := [] } =
        some (64, { st := (), calls := [Call.api_logmask 1] }) :=
  ⟨by decide, by decide,
    (afb_get_logmask_root maskItf 1 { st := (), calls := [] }).2.1,
    ((afb_get_logmask_root maskItf 1 { st := (), calls := [] }).2.2.2.2 6
      (by decide) (by decide)).trans rfl⟩

end AfbGlue
